import Mathlib

/-!
Verification development for the mediaweb media cache engine.

The definitions below are a shallow embedding of the Go sources
(`media.go`, `cache.go`, `file.go`, `main_common.go`) on a Unix host
(path separator `/`, empty volume names).  Filesystem and image-library
effects (`os.Stat`, `os.Create`, `imaging.Open`, ffmpeg, EXIF decoding)
are modelled by explicit environment records so that the control flow of
the cache functions is reproduced exactly; image pixel data is abstracted
to pixel dimensions, which is all the code under verification inspects.

Go `string`s are modelled as Lean `String`s, Go `int` sizes as `Nat`,
and Go maps keyed by path as lists of keys (the stored `time.Time`
values are never read by any code under verification).
-/

/-! ## Characters and strings: helpers mirroring Go's `strings` package -/

/-- `chPref pat s` is true when `pat` is a prefix of `s` (on char lists). -/
def chPref : List Char → List Char → Bool
  | [], _ => true
  | _ :: _, [] => false
  | a :: as, b :: bs => a = b && chPref as bs

/-- `strHasPref s p`: Go `strings.HasPrefix(s, p)`. -/
def strHasPref (s p : String) : Bool := chPref p.data s.data

/-- `chSuffix pat s`: `pat` is a suffix of `s`. -/
def chSuffix (pat s : List Char) : Bool := chPref pat.reverse s.reverse

/-- `strHasSuffix s p`: Go `strings.HasSuffix(s, p)`. -/
def strHasSuffix (s p : String) : Bool := chSuffix p.data s.data

/-- Worker for Go `strings.Replace(s, old, new, -1)`: replaces every
non-overlapping occurrence of `p0 :: ps`, scanning left to right.  The
`fuel` argument (instantiated with the input length, which bounds the
number of scan steps) only makes the recursion structural. -/
def replAux (p0 : Char) (ps repl : List Char) : Nat → List Char → List Char
  | 0, s => s
  | _ + 1, [] => []
  | fuel + 1, c :: rest =>
    if chPref (p0 :: ps) (c :: rest) then repl ++ replAux p0 ps repl fuel (rest.drop ps.length)
    else c :: replAux p0 ps repl fuel rest

/-- Go `strings.Replace(s, old, new, -1)` (the repository only calls it
with a non-empty `old`; for empty `old` we return `s` unchanged). -/
def replaceAll (s old repl : String) : String :=
  match old.data with
  | [] => s
  | p0 :: ps => String.mk (replAux p0 ps repl.data s.data.length s.data)

/-- Go `strings.EqualFold` restricted to ASCII folding, which is
sufficient for the fixed ASCII extension sets it is compared against. -/
def asciiLower (c : Char) : Char :=
  if 'A' ≤ c && c ≤ 'Z' then Char.ofNat (c.toNat + 32) else c

/-- Case-insensitive string equality (ASCII fold), Go `strings.EqualFold`. -/
def eqFold (a b : String) : Bool := a.data.map asciiLower == b.data.map asciiLower

/-! ## Go `path/filepath` on Unix -/

/-- Split a char list at every occurrence of `sep`
(single-character `strings.Split`). -/
def splitCh (sep : Char) : List Char → List (List Char)
  | [] => [[]]
  | c :: rest =>
    let r := splitCh sep rest
    if c = sep then [] :: r
    else
      match r with
      | [] => [[c]]
      | g :: gs => (c :: g) :: gs

/-- Split a path string on `/` into its raw fields. -/
def splitSlash (s : String) : List String := (splitCh '/' s.data).map String.mk

/-- Join path components with `/`. -/
def joinSlash : List String → String
  | [] => ""
  | [x] => x
  | x :: xs => x ++ "/" ++ joinSlash xs

/-- The element loop of Go `filepath.Clean` (Unix): `acc` is the output
stack (reversed).  `..` pops a previous component, is dropped at the
root of a rooted path, and is kept at the front of a relative path. -/
def cleanDots (rooted : Bool) : List String → List String → List String
  | [], acc => acc.reverse
  | e :: rest, acc =>
    if e = ".." then
      match acc with
      | [] => if rooted then cleanDots rooted rest [] else cleanDots rooted rest [".."]
      | a :: as =>
        if a = ".." then cleanDots rooted rest (".." :: a :: as)
        else cleanDots rooted rest as
    else cleanDots rooted rest (e :: acc)

/-- The `.`-and-empty-free components of `goClean p` together with its
rootedness flag. -/
def cleanParts (p : String) : Bool × List String :=
  let rooted := chPref ['/'] p.data
  (rooted, cleanDots rooted ((splitSlash p).filter (fun c => c != "" && c != ".")) [])

/-- Go `filepath.Clean` on Unix. -/
def goClean (p : String) : String :=
  if p = "" then "."
  else
    let (rooted, comps) := cleanParts p
    if rooted then
      if comps.isEmpty then "/" else "/" ++ joinSlash comps
    else
      if comps.isEmpty then "." else joinSlash comps

/-- Go `filepath.Join(a, b)` on Unix: join the non-empty arguments with
`/` and clean the result; all-empty arguments give the empty string. -/
def goJoin (a b : String) : String :=
  if a = "" && b = "" then ""
  else if a = "" then goClean b
  else if b = "" then goClean a
  else goClean (a ++ "/" ++ b)

/-- Go `filepath.ToSlash` is the identity on Unix (separator is `/`). -/
def toSlash (s : String) : String := s

/-- Drop one leading character (used to strip the `/` of a rooted path). -/
def stripLead (s : String) : String := String.mk (s.data.drop 1)

/-- Components of a cleaned, root-stripped path for `goRel`; the empty
string has no components, and `.` is kept as a literal component
exactly as in the Go string-scanning loop. -/
def goRelComps (s : String) : List String := if s = "" then [] else splitSlash s

/-- Drop the longest common prefix of two component lists, returning the
two remainders (the position reached by Go `filepath.Rel`'s scan loop). -/
def dropCommon : List String → List String → List String × List String
  | a :: as, b :: bs => if a = b then dropCommon as bs else (a :: as, b :: bs)
  | as, bs => (as, bs)

/-- Go `filepath.Rel(basepath, targpath)` on Unix; `none` is the error
return.  After cleaning, a base of `.` becomes empty, rootedness must
agree, the common leading components are discarded, a remaining leading
`..` in the base is an error, and the result climbs with one `..` per
remaining base component before descending into the target remainder. -/
def goRel (basepath targpath : String) : Option String :=
  let base0 := goClean basepath
  let targ0 := goClean targpath
  if targ0 = base0 then some "."
  else
    let base1 := if base0 = "." then "" else base0
    let baseSlashed := chPref ['/'] base1.data
    let targSlashed := chPref ['/'] targ0.data
    if baseSlashed != targSlashed then none
    else
      let bs := goRelComps (if baseSlashed then stripLead base1 else base1)
      let ts := goRelComps (if targSlashed then stripLead targ0 else targ0)
      let (bRest, tRest) := dropCommon bs ts
      match bRest with
      | ".." :: _ => none
      | _ => some (joinSlash (List.replicate bRest.length ".." ++ tRest))

/-- Go `filepath.Ext`: the suffix of the final element starting at its
last dot; empty when the final element has no dot. -/
def goExtAux : List Char → List Char → Option String
  | [], _ => none
  | c :: rest, acc =>
    if c = '/' then none
    else if c = '.' then some (String.mk ('.' :: acc))
    else goExtAux rest (c :: acc)

/-- Go `filepath.Ext(p)`. -/
def goExt (p : String) : String := (goExtAux p.data.reverse []).getD ""

/-- Worker for `goSplit`: scan the reversed chars collecting the file
part until the last `/`. -/
def goSplitAux : List Char → List Char → List Char × List Char
  | [], acc => ([], acc)
  | c :: rest, acc =>
    if c = '/' then ((c :: rest).reverse, acc) else goSplitAux rest (c :: acc)

/-- Go `filepath.Split(p)`: directory part (keeping its trailing `/`)
and file part. -/
def goSplit (p : String) : String × String :=
  let (d, f) := goSplitAux p.data.reverse []
  (String.mk d, String.mk f)

/-- Go `filepath.Dir(p)`: `Clean` of the directory part. -/
def goDir (p : String) : String := goClean (goSplit p).1

/-! Sanity checks of the path model against Go behaviour (these mirror
the expectations of the repository's own `TestFullPath`,
`TestRelativePath` and `TestThumbnailPath` tests). -/

example : goClean "a/b/.." = "a" := by decide
example : goClean "arelative/path/../../secret_file" = "secret_file" := by decide
example : goClean "/a/../../b" = "/b" := by decide
example : goClean "a//b/" = "a/b" := by decide
example : goClean "" = "." := by decide
example : goJoin "." "afile.jpg" = "afile.jpg" := by decide
example : goJoin "arelative/path" "afile.jpg" = "arelative/path/afile.jpg" := by decide
example : goJoin "/root/absolute/path" "afile.jpg" = "/root/absolute/path/afile.jpg" := by decide
example : goRel "" "" = some "." := by decide
example : goRel "" "directory" = some "directory" := by decide
example : goRel "" "dir1/dir2/dir3" = some "dir1/dir2/dir3" := by decide
example : goRel "dir1" "dir1/dir2/dir3" = some "dir2/dir3" := by decide
example : goRel "dir1/dir2" "dir1/dir2/dir3" = some "dir3" := by decide
example : goRel "dir1/dir2/dir3" "dir1/dir2/dir3" = some "." := by decide
example : goRel "/a" "b" = none := by decide
example : goRel "another" "directory" = some "../directory" := by decide
example : goRel "a/b" "a" = some ".." := by decide
example : goExt "img.jpg" = ".jpg" := by decide
example : goExt "noext" = "" := by decide
example : goExt "archive.tar.gz" = ".gz" := by decide
example : goSplit "subdrive/myimage.jpg" = ("subdrive/", "myimage.jpg") := by decide
example : goSplit "myimage.jpg" = ("", "myimage.jpg") := by decide
example : goDir "a/b/c.txt" = "a/b" := by decide
example : replaceAll "myimage.jpg" ".jpg" ".thumb.jpg" = "myimage.thumb.jpg" := by decide
example : replaceAll "img.jpg.jpg" ".jpg" ".thumb.jpg" = "img.thumb.jpg.thumb.jpg" := by decide

/-- Decidable equality for `Except`, so concrete runs of the fallible
functions below can be settled by `decide`. -/
instance instDecEqExcept {ε α : Type} [DecidableEq ε] [DecidableEq α] :
    DecidableEq (Except ε α) := fun x y =>
  match x, y with
  | Except.ok a, Except.ok b =>
    if h : a = b then Decidable.isTrue (congrArg Except.ok h)
    else Decidable.isFalse (fun hh => h (Except.ok.inj hh))
  | Except.error a, Except.error b =>
    if h : a = b then Decidable.isTrue (congrArg Except.error h)
    else Decidable.isFalse (fun hh => h (Except.error.inj hh))
  | Except.ok _, Except.error _ => Decidable.isFalse (fun hh => Except.noConfusion hh)
  | Except.error _, Except.ok _ => Decidable.isFalse (fun hh => Except.noConfusion hh)

/-! ## `main_common.go`: path security barrier -/

/-- `getFullPath` (main_common.go): joins base and relative path and
rejects the result when the re-derived relative offset errors or starts
with `../`.  The Go function returns `(basePath, err)` on failure; we
model the failure case as `Except.error` carrying the message. -/
def getFullPath (basePath relativePath : String) : Except String String :=
  let fullPath := toSlash (goJoin basePath relativePath)
  match goRel basePath fullPath with
  | none => Except.error ("hacker attack, someone tries to access: " ++ fullPath)
  | some diffPath0 =>
    let diffPath := toSlash diffPath0
    if strHasPref diffPath "../" then
      Except.error ("hacker attack, someone tries to access: " ++ fullPath)
    else
      Except.ok fullPath

example : getFullPath "." "afile.jpg" = Except.ok "afile.jpg" := by decide
example : (getFullPath "." "../../secret_file").isOk = false := by decide
example : getFullPath "arelative/path" "afile.jpg" = Except.ok "arelative/path/afile.jpg" := by
  decide
example : (getFullPath "arelative/path" "../../secret_file").isOk = false := by decide
example : getFullPath "/root/absolute/path" "afile.jpg" =
    Except.ok "/root/absolute/path/afile.jpg" := by decide
example : (getFullPath "/root/absolute/path" "../../secret_file").isOk = false := by decide

/-! ## `media.go`: media classification -/

/-- Image extensions (media.go `imgExtensions`). -/
def imgExtensions : List String := [".png", ".jpg", ".jpeg", ".tif", ".tiff", ".gif"]

/-- Video extensions (media.go `vidExtensions`). -/
def vidExtensions : List String := [".avi", ".mov", ".vid", ".mkv", ".mp4"]

/-- `isImage` (file.go): case-insensitive extension membership. -/
def isImage (pathAndFile : String) : Bool :=
  imgExtensions.any (fun e => eqFold (goExt pathAndFile) e)

/-- `isVideo` (file.go). -/
def isVideo (pathAndFile : String) : Bool :=
  vidExtensions.any (fun e => eqFold (goExt pathAndFile) e)

/-- `getFileType` (file.go): `"image"`, `"video"` or `""`. -/
def getFileType (relativeFileName : String) : String :=
  if isImage relativeFileName then "image"
  else if isVideo relativeFileName then "video"
  else ""

/-- `Media.isJPEG` (media.go). -/
def isJPEG (pathAndFile : String) : Bool :=
  eqFold (goExt pathAndFile) ".jpg" || eqFold (goExt pathAndFile) ".jpeg"

/-- The `File` record (media.go): `Type` is `"folder"`, `"image"` or
`"video"`; `path` includes the name and always uses `/`. -/
structure File where
  ftype : String
  name : String
  path : String
deriving DecidableEq, Repr

/-- `contains` (file.go): membership in a string slice. -/
def containsStr (s : List String) (e : String) : Bool := s.any (fun a => a = e)

/-! ## `hash/fnv`: the 64-bit FNV-1 hash used for album collage names -/

/-- FNV-1 64-bit prime. -/
def fnvPrime : Nat := 1099511628211

/-- FNV-1 64-bit offset basis. -/
def fnvOffset : Nat := 14695981039346656037

/-- One FNV-1 step: multiply by the prime modulo `2^64`, then xor the
next byte (Go `hash/fnv`, `fnv.New64()`). -/
def fnv1Step (h b : Nat) : Nat := Nat.xor ((h * fnvPrime) % 2 ^ 64) b

/-- FNV-1 64-bit hash of a byte sequence. -/
def fnv64 (bytes : List Nat) : Nat := bytes.foldl fnv1Step fnvOffset

/-- UTF-8 encoding of one character (Go strings are UTF-8; `[]byte(s)`
yields these bytes). -/
def utf8Bytes (c : Char) : List Nat :=
  if c.toNat < 128 then [c.toNat]
  else if c.toNat < 2048 then [192 + c.toNat / 64, 128 + c.toNat % 64]
  else if c.toNat < 65536 then
    [224 + c.toNat / 4096, 128 + (c.toNat / 64) % 64, 128 + c.toNat % 64]
  else
    [240 + c.toNat / 262144, 128 + (c.toNat / 4096) % 64, 128 + (c.toNat / 64) % 64,
      128 + c.toNat % 64]

/-- The bytes of a Go string. -/
def strBytes (s : String) : List Nat := (s.data.map utf8Bytes).flatten

/-! ## `cache.go`: the cache data model -/

/-- The `Cache` record (cache.go).  The three Go maps
`map[string]time.Time` are modelled by their key sets (the stored times
are never read); `albumThumbnails` is an `Option` because `createCache`
leaves that field uninitialised, i.e. a Go `nil` map. -/
structure Cache where
  cachepath : String
  previewMaxSide : Nat
  genPreviewForSmallImages : Bool
  genAlbumThumbs : Bool
  thumbnails : List String
  previews : List String
  albumThumbnails : Option (List String)
deriving DecidableEq, Repr

/-- `Cache.getFullCachePath` (cache.go). -/
def getFullCachePath (c : Cache) (relativePath : String) : Except String String :=
  getFullPath c.cachepath relativePath

/-- `Cache.relativeThumbnailPath` (cache.go): replace the extension with
`.thumb.jpg` (via `strings.Replace` with count `-1`); a name without an
extension is an error. -/
def relativeThumbnailPath (relativeMediaPath : String) : Except String String :=
  let (path, file0) := goSplit relativeMediaPath
  let ext := goExt file0
  if ext = "" then Except.error ("File has no extension: " ++ file0)
  else
    let file := replaceAll file0 ext ".thumb.jpg"
    Except.ok (toSlash (goJoin path file))

/-- `Cache.relativePreviewPath` (cache.go): replace the extension with
`.preview.jpg`. -/
def relativePreviewPath (relativeMediaPath : String) : Except String String :=
  let (path, file0) := goSplit relativeMediaPath
  let ext := goExt file0
  if ext = "" then Except.error ("file has no extension: " ++ file0)
  else
    let file := replaceAll file0 ext ".preview.jpg"
    Except.ok (toSlash (goJoin path file))

/-- `Cache.thumbnailPath` (cache.go): absolute thumbnail path. -/
def thumbnailPath (c : Cache) (relativeMediaPath : String) : Except String String :=
  match relativeThumbnailPath relativeMediaPath with
  | Except.error e => Except.error e
  | Except.ok relativePath => getFullCachePath c relativePath

/-- `Cache.previewPath` (cache.go): absolute preview path. -/
def previewPath (c : Cache) (relativeMediaPath : String) : Except String String :=
  match relativePreviewPath relativeMediaPath with
  | Except.error e => Except.error e
  | Except.ok relativePath => getFullCachePath c relativePath

/-- `Cache.errorIndicationPath` (cache.go): replace the extension with
`.err.txt` (again `strings.Replace` with count `-1`; no error case). -/
def errorIndicationPath (anyPath : String) : String :=
  let (path, file0) := goSplit anyPath
  let ext := goExt file0
  let file := replaceAll file0 ext ".err.txt"
  goJoin path file

/-- `Cache.relativeAlbumThumbnailPath` (cache.go): FNV-1 64-bit hash of
the album folder's base name followed by the concatenated file names,
in decimal, with extension `.jpg`, joined under the album path. -/
def relativeAlbumThumbnailPath (relativeAlbumPath : String) (files : List String) : String :=
  let folder := (goSplit relativeAlbumPath).2
  let h := fnv64 (strBytes (folder ++ String.join files))
  goJoin relativeAlbumPath (Nat.repr h) ++ ".jpg"

/-- `Cache.hasThumbnail` (cache.go). -/
def hasThumbnail (c : Cache) (relativeMediaPath : String) : Bool :=
  match relativeThumbnailPath relativeMediaPath with
  | Except.error _ => false
  | Except.ok path => containsStr c.thumbnails path

/-- `Cache.hasPreview` (cache.go). -/
def hasPreview (c : Cache) (relativeMediaPath : String) : Bool :=
  match relativePreviewPath relativeMediaPath with
  | Except.error _ => false
  | Except.ok path => containsStr c.previews path

/-- `Cache.hasAlbumThumbnail` (cache.go): lookup in the (possibly nil)
album-thumbnail map; a Go read from a nil map yields the zero value,
hence `false` here. -/
def hasAlbumThumbnail (c : Cache) (relativeAlbumPreviewPath : String) : Bool :=
  match c.albumThumbnails with
  | none => false
  | some keys => containsStr keys relativeAlbumPreviewPath

/-! Sanity checks mirroring `TestThumbnailPath` / `TestPreviewPath`. -/

example :
    thumbnailPath (Cache.mk "/d/thumbpath" 0 false false [] [] none) "myimage.jpg" =
      Except.ok "/d/thumbpath/myimage.thumb.jpg" := by decide
example :
    thumbnailPath (Cache.mk "/d/thumbpath" 0 false false [] [] none) "subdrive/myimage.png" =
      Except.ok "/d/thumbpath/subdrive/myimage.thumb.jpg" := by decide
example :
    (thumbnailPath (Cache.mk "/d/thumbpath" 0 false false [] [] none)
      "subdrive/myimage").isOk = false := by decide
example :
    (thumbnailPath (Cache.mk "/d/thumbpath" 0 false false [] [] none)
      "subdrive/../../hacker").isOk = false := by decide
example :
    previewPath (Cache.mk "/d/thumbpath" 1280 false false [] [] none) "subdrive/myimage.png" =
      Except.ok "/d/thumbpath/subdrive/myimage.preview.jpg" := by decide
example :
    errorIndicationPath "/d/thumbpath/myimage.thumb.jpg" =
      "/d/thumbpath/myimage.thumb.err.txt" := by decide

/-! ## Effect model: filesystem and external image/video primitives -/

/-- The set of files that exist on disk.  `os.Stat` succeeds exactly on
members; `os.Create` adds a member. -/
structure FS where
  files : List String
deriving DecidableEq, Repr

/-- Go `os.Stat(p)` succeeding (`err == nil`). -/
def FS.statOk (fs : FS) (p : String) : Bool := containsStr fs.files p

/-- Effect of a successful `os.Create(p)`. -/
def FS.create (fs : FS) (p : String) : FS := FS.mk (p :: fs.files)

/-- Effect of `os.Remove(p)`. -/
def FS.removeFile (fs : FS) (p : String) : FS := FS.mk (fs.files.filter (fun q => q != p))

/-- Result of an EXIF decode (`github.com/cozy/goexif2/exif`): the
orientation tag (`none` when the tag is absent; tag parse failures
surface as value `0` because Go discards the error of `orientTag.Int`)
and whether an embedded JPEG thumbnail is present. -/
structure ExifData where
  orientation : Option Int
  hasThumb : Bool
deriving DecidableEq, Repr

/-- Environment of external effects consumed by the cache engine.  Image
decoding returns the pixel dimensions of the decoded image, the only
datum the code under verification inspects; `openImage` is
`imaging.Open` with `AutoOrientation(true)` (used by generation),
`openImagePlain` is plain `imaging.Open` (used by
`getImageWidthAndHeight`), so the two may disagree (orientation can
swap width and height).  Booleans model success of `os.MkdirAll`,
`os.Create`, `imaging.Encode`, the ffmpeg run, and decoding of the
embedded video icon and of embedded EXIF thumbnails. -/
structure GenEnv where
  openImage : String → Except String (Nat × Nat)
  openImagePlain : String → Except String (Nat × Nat)
  mkdirOk : String → Bool
  createOk : String → Bool
  encodeOk : String → Bool
  ffmpegInstalled : Bool
  ffmpegRunOk : String → String → Bool
  ffmpegWritesOut : String → String → Bool
  videoIconOk : Bool
  exifDecode : String → Option ExifData
  exifThumbDecodeOk : Bool

/-- The `Media` record (media.go), restricted to the fields consulted by
the functions under verification. -/
structure Media where
  mediaPath : String
  autoRotate : Bool
deriving DecidableEq, Repr

/-- `Media.getFullMediaPath` (media.go). -/
def getFullMediaPath (m : Media) (relativePath : String) : Except String String :=
  getFullPath m.mediaPath relativePath

/-- `Media.getImageWidthAndHeight` (media.go): plain `imaging.Open`,
then the bounds of the decoded image. -/
def getImageWidthAndHeight (env : GenEnv) (fullMediaPath : String) :
    Except String (Nat × Nat) :=
  match env.openImagePlain fullMediaPath with
  | Except.error e =>
    Except.error ("unable to open image " ++ fullMediaPath ++ ", reason: " ++ e)
  | Except.ok wh => Except.ok wh

/-! ## `cache.go`: artifact generation -/

/-- Result of one low-level generation step: Go error value and the
filesystem afterwards. -/
structure GenStep where
  result : Except String Unit
  fs : FS
deriving DecidableEq

/-- `Cache.generateImageThumbnail` (cache.go): decode, resize to the
fixed 256-box (pixel work abstracted), create directories, create the
output file, encode.  Note that a successful `os.Create` leaves the
output file on disk even when the final encode fails. -/
def generateImageThumbnail (env : GenEnv) (fs : FS) (fullMediaPath fullThumbPath : String) :
    GenStep :=
  match env.openImage fullMediaPath with
  | Except.error e =>
    GenStep.mk (Except.error ("unable to open image " ++ fullMediaPath ++ ", reason: " ++ e)) fs
  | Except.ok _ =>
    if !env.mkdirOk (goDir fullThumbPath) then
      GenStep.mk (Except.error ("unable to create directories in " ++ fullThumbPath)) fs
    else if !env.createOk fullThumbPath then
      GenStep.mk (Except.error ("unable to open " ++ fullThumbPath)) fs
    else
      let fs1 := fs.create fullThumbPath
      GenStep.mk
        (if env.encodeOk fullThumbPath then Except.ok () else Except.error "encode failed")
        fs1

/-- Dimension arithmetic of `imaging.Fit(img, maxW, maxH, filter)`: no
change when the source already fits, otherwise scale down preserving
aspect ratio.  The library computes the scaled side with `float64`
arithmetic truncated by `int(...)`; here this is the corresponding
exact rational computation (`Nat` division truncates identically, and
the float rounding error of the library cannot lift the truncated
result above the bound proved below). -/
def fitDims (srcW srcH maxW maxH : Nat) : Nat × Nat :=
  if maxW = 0 || maxH = 0 then (0, 0)
  else if srcW = 0 || srcH = 0 then (0, 0)
  else if srcW ≤ maxW && srcH ≤ maxH then (srcW, srcH)
  else if srcH * maxW < srcW * maxH then (maxW, maxW * srcH / srcW)
  else (maxH * srcW / srcH, maxH)

/-- `Cache.generateImagePreview` (cache.go): like the thumbnail
generator but resizing with `imaging.Fit` to `previewMaxSide`; also
reports the dimensions of a successfully encoded preview. -/
def generateImagePreview (c : Cache) (env : GenEnv) (fs : FS)
    (fullMediaPath fullPreviewPath : String) : GenStep × Option (Nat × Nat) :=
  match env.openImage fullMediaPath with
  | Except.error e =>
    (GenStep.mk (Except.error ("unable to open image " ++ fullMediaPath ++ ", reason: " ++ e))
      fs, none)
  | Except.ok wh =>
    let previewDims := fitDims wh.1 wh.2 c.previewMaxSide c.previewMaxSide
    if !env.mkdirOk (goDir fullPreviewPath) then
      (GenStep.mk (Except.error ("unable to create directories in " ++ fullPreviewPath)) fs,
        none)
    else if !env.createOk fullPreviewPath then
      (GenStep.mk (Except.error ("unable to open " ++ fullPreviewPath)) fs, none)
    else
      let fs1 := fs.create fullPreviewPath
      if env.encodeOk fullPreviewPath then (GenStep.mk (Except.ok ()) fs1, some previewDims)
      else (GenStep.mk (Except.error "encode failed") fs1, none)

/-- `Cache.extractVideoScreenshot` (cache.go): requires ffmpeg, creates
directories, runs ffmpeg; failure when the run fails or the output file
does not exist afterwards. -/
def extractVideoScreenshot (env : GenEnv) (fs : FS) (inFilePath outFilePath : String) :
    GenStep :=
  if !env.ffmpegInstalled then
    GenStep.mk (Except.error "video thumbnails not supported. ffmpeg not installed") fs
  else if !env.mkdirOk (goDir outFilePath) then
    GenStep.mk (Except.error ("unable to create directories in " ++ outFilePath)) fs
  else
    let ran := env.ffmpegRunOk inFilePath outFilePath
    let fs1 := if env.ffmpegWritesOut inFilePath outFilePath then fs.create outFilePath else fs
    if !ran || !(fs1.statOk outFilePath) then
      GenStep.mk (Except.error ("ffmpeg failed for " ++ inFilePath)) fs1
    else GenStep.mk (Except.ok ()) fs1

/-- `Cache.generateVideoThumbnail` (cache.go): extract a screenshot to a
temporary `<thumb>.sh.jpg`, decode it, overlay the video icon, write the
thumbnail; the deferred `os.Remove` of the screenshot applies on every
path after a successful extraction. -/
def generateVideoThumbnail (env : GenEnv) (fs : FS) (fullMediaPath fullThumbPath : String) :
    GenStep :=
  let screenShot := fullThumbPath ++ ".sh.jpg"
  let ex := extractVideoScreenshot env fs fullMediaPath screenShot
  match ex.result with
  | Except.error e => GenStep.mk (Except.error e) ex.fs
  | Except.ok _ =>
    match env.openImage screenShot with
    | Except.error e =>
      GenStep.mk (Except.error ("unable to open screenshot image " ++ screenShot ++
        ", reason: " ++ e)) (ex.fs.removeFile screenShot)
    | Except.ok _ =>
      if !env.videoIconOk then
        GenStep.mk (Except.error "video icon decode failed") (ex.fs.removeFile screenShot)
      else if !env.createOk fullThumbPath then
        GenStep.mk (Except.error ("unable to open " ++ fullThumbPath))
          (ex.fs.removeFile screenShot)
      else
        let fs1 := ex.fs.create fullThumbPath
        GenStep.mk
          (if env.encodeOk fullThumbPath then Except.ok () else Except.error "encode failed")
          (fs1.removeFile screenShot)

/-- `Cache.generateErrorIndicationFile` (cache.go): try to create the
marker; when `os.Create` fails the failure is only logged.  Returns
whether the marker file was actually created. -/
def generateErrorIndicationFile (env : GenEnv) (fs : FS) (errorIndicationFile : String) :
    Bool × FS :=
  if env.createOk errorIndicationFile then (true, fs.create errorIndicationFile) else (false, fs)

/-- Result of `Cache.generateThumbnail`.  `genInvoked`, `markerAttempted`
and `markerWritten` are ghost observations of the run: whether the
image/video generation step was entered, whether
`generateErrorIndicationFile` was called, and whether the marker file
came into existence. -/
structure ThumbResult where
  result : Except String String
  fs : FS
  cache : Cache
  genInvoked : Bool
  markerAttempted : Bool
  markerWritten : Bool
deriving DecidableEq

/-- `Cache.generateThumbnail` (cache.go): compute the thumbnail name,
return it if the artifact already exists, fail fast on an existing
error marker, resolve the media path, dispatch to video or image
generation, memoize failures with an error marker, and record success
in the in-memory thumbnail map. -/
def generateThumbnail (env : GenEnv) (m : Media) (c : Cache) (fs : FS)
    (relativeFilePath : String) : ThumbResult :=
  match relativeThumbnailPath relativeFilePath with
  | Except.error e => ThumbResult.mk (Except.error e) fs c false false false
  | Except.ok relativeThumbPath =>
    match getFullCachePath c relativeThumbPath with
    | Except.error e => ThumbResult.mk (Except.error e) fs c false false false
    | Except.ok thumbFileName =>
      if fs.statOk thumbFileName then
        ThumbResult.mk (Except.ok thumbFileName) fs c false false false
      else
        let errorIndicationFile := errorIndicationPath thumbFileName
        if fs.statOk errorIndicationFile then
          ThumbResult.mk
            (Except.error ("skipping generate thumbnail for " ++ relativeFilePath ++
              " since it has failed before,")) fs c false false false
        else
          match getFullMediaPath m relativeFilePath with
          | Except.error e => ThumbResult.mk (Except.error e) fs c false false false
          | Except.ok fullMediaPath =>
            let step :=
              if isVideo fullMediaPath then
                generateVideoThumbnail env fs fullMediaPath thumbFileName
              else generateImageThumbnail env fs fullMediaPath thumbFileName
            match step.result with
            | Except.error e =>
              let mwfs := generateErrorIndicationFile env step.fs errorIndicationFile
              ThumbResult.mk (Except.error e) mwfs.2 c true true mwfs.1
            | Except.ok _ =>
              ThumbResult.mk (Except.ok thumbFileName) step.fs
                { c with thumbnails := relativeThumbPath :: c.thumbnails } true false false

/-- Result of `Cache.generatePreview`; `tooSmall` is the middle return
value of the Go function, `dimsFailed` observes a failing
`getImageWidthAndHeight`, and `writtenDims` holds the dimensions of a
successfully encoded preview artifact. -/
structure PreviewResult where
  result : Except String String
  tooSmall : Bool
  fs : FS
  cache : Cache
  genInvoked : Bool
  dimsFailed : Bool
  markerAttempted : Bool
  markerWritten : Bool
  writtenDims : Option (Nat × Nat)
deriving DecidableEq

/-- `Cache.generatePreview` (cache.go): same artifact/marker
short-circuits as `generateThumbnail`, then reads the source
dimensions (memoizing a failure), skips images that fit within
`previewMaxSide` when `genPreviewForSmallImages` is off (`tooSmall`,
with no marker and no artifact), and otherwise generates the preview,
memoizing failures and recording success in the preview map. -/
def generatePreview (env : GenEnv) (m : Media) (c : Cache) (fs : FS)
    (relativeFilePath : String) : PreviewResult :=
  match relativePreviewPath relativeFilePath with
  | Except.error e => PreviewResult.mk (Except.error e) false fs c false false false false none
  | Except.ok relPrevPath =>
    match getFullCachePath c relPrevPath with
    | Except.error e => PreviewResult.mk (Except.error e) false fs c false false false false none
    | Except.ok previewFileName =>
      if fs.statOk previewFileName then
        PreviewResult.mk (Except.ok previewFileName) false fs c false false false false none
      else
        let errorIndicationFile := errorIndicationPath previewFileName
        if fs.statOk errorIndicationFile then
          PreviewResult.mk
            (Except.error ("Skipping generate preview for " ++ relativeFilePath ++
              " since it has failed before.")) false fs c false false false false none
        else
          match getFullMediaPath m relativeFilePath with
          | Except.error e =>
            PreviewResult.mk (Except.error e) false fs c false false false false none
          | Except.ok fullMediaPath =>
            match getImageWidthAndHeight env fullMediaPath with
            | Except.error e =>
              let mwfs := generateErrorIndicationFile env fs errorIndicationFile
              PreviewResult.mk (Except.error e) false mwfs.2 c false true true mwfs.1 none
            | Except.ok wh =>
              if !c.genPreviewForSmallImages && wh.1 ≤ c.previewMaxSide &&
                  wh.2 ≤ c.previewMaxSide then
                PreviewResult.mk
                  (Except.error ("Image " ++ relativeFilePath ++
                    " too small to generate preview")) true fs c false false false false none
              else
                let stepDims := generateImagePreview c env fs fullMediaPath previewFileName
                match stepDims.1.result with
                | Except.error e =>
                  let mwfs := generateErrorIndicationFile env stepDims.1.fs errorIndicationFile
                  PreviewResult.mk (Except.error e) false mwfs.2 c true false true mwfs.1
                    stepDims.2
                | Except.ok _ =>
                  PreviewResult.mk (Except.ok previewFileName) false stepDims.1.fs
                    { c with previews := relPrevPath :: c.previews } true false false false
                    stepDims.2

/-- Result of `Cache.generateAlbumThumbnail`: the cache record is
returned verbatim — the source never touches any of the in-memory
maps. -/
structure AlbumResult where
  result : Except String Unit
  fs : FS
  cache : Cache
deriving DecidableEq

/-- `Cache.generateAlbumThumbnail` (cache.go): derives the preview name
of the collage artifact, returns silently when it already exists,
otherwise composes the collage (4-tile or 9-tile; the tiling only
affects pixel data, which is abstracted away) and writes it.  No
in-memory map is updated. -/
def generateAlbumThumbnail (env : GenEnv) (c : Cache) (fs : FS)
    (relativeAlbumPreviewPath : String) : AlbumResult :=
  match relativePreviewPath relativeAlbumPreviewPath with
  | Except.error e => AlbumResult.mk (Except.error e) fs c
  | Except.ok relPrevPath =>
    match getFullCachePath c relPrevPath with
    | Except.error e => AlbumResult.mk (Except.error e) fs c
    | Except.ok previewFileName =>
      if fs.statOk previewFileName then AlbumResult.mk (Except.ok ()) fs c
      else if !env.mkdirOk (goDir previewFileName) then
        AlbumResult.mk
          (Except.error ("unable to create directories in " ++ previewFileName)) fs c
      else if !env.createOk previewFileName then
        AlbumResult.mk (Except.error ("unable to open " ++ previewFileName)) fs c
      else
        let fs1 := fs.create previewFileName
        AlbumResult.mk
          (if env.encodeOk previewFileName then Except.ok () else Except.error "encode failed")
          fs1 c

/-! ## `cache.go`: startup scan and cleanup -/

/-- A directory tree: the contents of the cache directory as scanned by
`getFiles` during `loadCache` (symlinks, which `getFiles` also
classifies as folders, are subsumed by `dir`). -/
inductive FEntry where
  | file (name : String) : FEntry
  | dir (name : String) (children : List FEntry) : FEntry

/-- `Cache.loadCache` (cache.go), recursing over the scanned tree: a
folder entry is descended into (Go checks the full cache path of each
directory it enters; entering fails silently on error), an image file
whose name ends in `.preview.jpg` or `.thumb.jpg` is recorded in the
corresponding map under its slash-normalized relative path, everything
else is ignored. -/
def loadCache : Cache → String → List FEntry → Cache
  | c, _, [] => c
  | c, rel, FEntry.file name :: rest =>
    let c1 :=
      if getFileType name = "image" then
        if strHasSuffix name ".preview.jpg" then
          { c with previews := toSlash (goJoin rel name) :: c.previews }
        else if strHasSuffix name ".thumb.jpg" then
          { c with thumbnails := toSlash (goJoin rel name) :: c.thumbnails }
        else c
      else c
    loadCache c1 rel rest
  | c, rel, FEntry.dir name children :: rest =>
    let childRel := toSlash (goJoin rel name)
    let c1 :=
      match getFullCachePath c childRel with
      | Except.error _ => c
      | Except.ok _ => loadCache c childRel children
    loadCache c1 rel rest
termination_by _ _ entries => sizeOf entries
decreasing_by
  all_goals simp_wf
  all_goals omega

/-- `createCache` (cache.go): the record literal initialises every field
except `albumThumbnails`, which is therefore a Go `nil` map (`none`),
then scans the cache directory tree. -/
def createCache (cachepath : String) (previewMaxSide : Nat)
    (genPreviewForSmallImages genAlbumThumbs : Bool) (cacheTree : List FEntry) : Cache :=
  let c := Cache.mk cachepath previewMaxSide genPreviewForSmallImages genAlbumThumbs [] [] none
  match getFullCachePath c "" with
  | Except.error _ => c
  | Except.ok _ => loadCache c "" cacheTree

/-- The allow-list contribution of one expected media file in
`Cache.cleanupCache` (cache.go): the folder name for folders, and for
files the base names of the thumbnail, its error marker, the preview,
and its error marker — each only when the corresponding path
derivation succeeds. -/
def legitCacheNames (c : Cache) (file : File) : List String :=
  let fileName := (goSplit file.name).2
  if file.ftype = "folder" then [fileName]
  else
    (match thumbnailPath c fileName with
     | Except.ok thumbName0 =>
       let thumbName := (goSplit thumbName0).2
       [thumbName, (goSplit (errorIndicationPath thumbName)).2]
     | Except.error _ => []) ++
    (match previewPath c fileName with
     | Except.ok previewName0 =>
       let previewName := (goSplit previewName0).2
       [previewName, (goSplit (errorIndicationPath previewName)).2]
     | Except.error _ => [])

/-- `Cache.cleanupCache` (cache.go): build the allow-list from the
expected media files, then delete (`os.RemoveAll`) every directory
entry whose name is not on it.  `dirEntryNames` are the names returned
by `os.ReadDir` of the full cache path; the function returns the
number of removed entries, and the model also returns which. -/
def cleanupCache (c : Cache) (expectedMediaFiles : List File)
    (dirEntryNames : List String) : Nat × List String :=
  let cacheFileNames := expectedMediaFiles.flatMap (legitCacheNames c)
  let removed := dirEntryNames.filter (fun n => !containsStr cacheFileNames n)
  (removed.length, removed)

/-! ## `media.go`: EXIF orientation -/

/-- `Media.extractEXIF` (media.go): resolve the media path (failures
yield no EXIF), only JPEG files are decoded, then the external EXIF
decoder runs (failures to open or decode also yield no EXIF). -/
def extractEXIF (env : GenEnv) (m : Media) (relativeFilePath : String) : Option ExifData :=
  match getFullMediaPath m relativeFilePath with
  | Except.error _ => none
  | Except.ok fullFilePath =>
    if !isJPEG fullFilePath then none
    else env.exifDecode fullFilePath

/-- `Media.isRotationNeeded` (media.go): false when auto-rotation is
off, EXIF or the orientation tag is absent, or the orientation code is
outside `2..8`. -/
def isRotationNeeded (env : GenEnv) (m : Media) (relativeFilePath : String) : Bool :=
  if !m.autoRotate then false
  else
    match extractEXIF env m relativeFilePath with
    | none => false
    | some ex =>
      match ex.orientation with
      | none => false
      | some orientInt => decide (1 < orientInt ∧ orientInt < 9)

/-- The eight geometric corrections of the EXIF orientation standard as
applied by `writeEXIFThumbnail`. -/
inductive RotTransform where
  | flipV
  | rotate180
  | rotate180flipV
  | rotate270flipV
  | rotate270
  | rotate90flipV
  | rotate90
deriving DecidableEq, Repr

/-- The `switch orientInt` of `writeEXIFThumbnail` (media.go), reached
only for codes 2 through 8: `imaging.FlipV`, `Rotate180`,
`Rotate180(FlipV)`, `Rotate270(FlipV)`, `Rotate270`, `Rotate90(FlipV)`,
`Rotate90` respectively. -/
def orientTransform (o : Int) : RotTransform :=
  if o = 2 then RotTransform.flipV
  else if o = 3 then RotTransform.rotate180
  else if o = 4 then RotTransform.rotate180flipV
  else if o = 5 then RotTransform.rotate270flipV
  else if o = 6 then RotTransform.rotate270
  else if o = 7 then RotTransform.rotate90flipV
  else RotTransform.rotate90

/-- What `writeEXIFThumbnail` wrote: the embedded thumbnail bytes
verbatim, or the decoded thumbnail with one correction applied. -/
inductive ThumbWrite where
  | raw
  | rotated (t : RotTransform)
deriving DecidableEq, Repr

/-- `Media.writeEXIFThumbnail` (media.go): fails without EXIF or
without an embedded thumbnail; writes the raw bytes when the
orientation tag is absent, out of the `2..8` range, or the embedded
thumbnail fails to decode; otherwise applies the 8-way orientation
correction. -/
def writeEXIFThumbnail (env : GenEnv) (m : Media) (relativeFilePath : String) :
    Except String ThumbWrite :=
  match extractEXIF env m relativeFilePath with
  | none => Except.error ("no exif info for " ++ relativeFilePath)
  | some ex =>
    if !ex.hasThumb then Except.error ("no exif thumbnail for " ++ relativeFilePath)
    else
      match ex.orientation with
      | none => Except.ok ThumbWrite.raw
      | some orientInt =>
        if 1 < orientInt ∧ orientInt < 9 then
          if !env.exifThumbDecodeOk then Except.ok ThumbWrite.raw
          else Except.ok (ThumbWrite.rotated (orientTransform orientInt))
        else Except.ok ThumbWrite.raw

/-! ## Helper lemmas -/

theorem strData_append (s t : String) : (s ++ t).data = s.data ++ t.data := rfl

theorem chPref_append_self (p r : List Char) : chPref p (p ++ r) = true := by
  induction p with
  | nil => rfl
  | cons a as ih => simp [chPref, ih]

theorem strHasSuffix_append (s t : String) : strHasSuffix (s ++ t) t = true := by
  unfold strHasSuffix chSuffix
  rw [strData_append, List.reverse_append]
  exact chPref_append_self _ _

theorem utf8Bytes_lt (c : Char) : ∀ b ∈ utf8Bytes c, b < 256 := by
  intro b hb
  have h := c.valid
  unfold UInt32.isValidChar Nat.isValidChar at h
  have hv : c.toNat = c.val.toNat := rfl
  have hc : c.toNat < 1114112 := by omega
  unfold utf8Bytes at hb
  split_ifs at hb <;> simp only [List.mem_cons, List.not_mem_nil, or_false] at hb <;> omega

theorem fnv64_foldl_lt (l : List Nat) (h : ∀ b ∈ l, b < 256) :
    ∀ acc, acc < 2 ^ 64 → List.foldl fnv1Step acc l < 2 ^ 64 := by
  induction l with
  | nil => intro acc hacc; simpa using hacc
  | cons b bs ih =>
    intro acc hacc
    simp only [List.foldl_cons]
    refine ih (fun x hx => h x (List.mem_cons_of_mem _ hx)) _ ?_
    unfold fnv1Step
    refine Nat.xor_lt_two_pow (Nat.mod_lt _ (by norm_num)) ?_
    exact lt_trans (h b (List.mem_cons_self _ _)) (by norm_num)

theorem fnv64_lt (s : String) : fnv64 (strBytes s) < 2 ^ 64 := by
  unfold fnv64
  refine fnv64_foldl_lt _ ?_ _ (by norm_num [fnvOffset])
  intro b hb
  unfold strBytes at hb
  simp only [List.mem_flatten, List.mem_map] at hb
  obtain ⟨l, ⟨ch, _, rfl⟩, hbl⟩ := hb
  exact utf8Bytes_lt ch b hbl

/-! ## Claim C1 -/

/-- C1: the claim states that every relative path whose normalized join
escapes the base path (re-derived offset empty or beginning with a
parent-directory marker) is rejected, for any number of escape
segments.  The single escape segment `..` refutes this: joined with
base `a/b` it yields `a` — the parent directory of the base, with
offset exactly `..` — yet `getFullPath` returns it without error,
because the guard only checks for the prefix `../`. -/
theorem C1_getFullPath_dotdot_accepted :
    getFullPath "a/b" ".." = Except.ok "a" ∧
    toSlash (goJoin "a/b" "..") = "a" ∧
    goRel "a/b" "a" = some ".." := by decide

/-! ## Claim C9 -/

/-- The album-collage naming rule in the words of the spec (§6): the
decimal representation of the 64-bit FNV hash of the album folder's
base name concatenated with the concatenation of the file names, with
extension `.jpg`, placed under the album's cache directory. -/
def specAlbumCollageName (relativeAlbumPath : String) (files : List String) : String :=
  goJoin relativeAlbumPath
      (Nat.repr (fnv64 (strBytes ((goSplit relativeAlbumPath).2 ++ String.join files)))) ++
    ".jpg"

/-- C9: `relativeAlbumThumbnailPath` realises the spec's collage naming
rule exactly: it equals the spec-worded formula for every album path
and file list, the hash value is a genuine 64-bit quantity, the
produced name always ends in `.jpg`, and the name is sensitive to the
order of the file list (witnessed by a concrete album). -/
theorem C9_album_collage_naming :
    (∀ (relativeAlbumPath : String) (files : List String),
      relativeAlbumThumbnailPath relativeAlbumPath files =
        specAlbumCollageName relativeAlbumPath files) ∧
    (∀ s : String, fnv64 (strBytes s) < 2 ^ 64) ∧
    (∀ (relativeAlbumPath : String) (files : List String),
      strHasSuffix (relativeAlbumThumbnailPath relativeAlbumPath files) ".jpg" = true) ∧
    (relativeAlbumThumbnailPath "ab" ["c", "d"] ==
      relativeAlbumThumbnailPath "ab" ["d", "c"]) = false := by
  refine ⟨fun rp files => rfl, fun s => fnv64_lt s, fun rp files => ?_, by decide⟩
  unfold relativeAlbumThumbnailPath
  exact strHasSuffix_append _ _

/-! ## Claim C7 -/

/-- C7 (amended): `cleanupCache` removes exactly the directory entries
whose names are absent from the allow-list contributed by the expected
media files, and returns their number; concretely, a legitimate
thumbnail is kept while an orphan file is removed.  (The original
claim's album-collage exemption is refuted separately: collages get no
allow-list entry.) -/
theorem C7_cleanup_exact (c : Cache) (expected : List File) (entries : List String) :
    (cleanupCache c expected entries).1 = (cleanupCache c expected entries).2.length ∧
    (∀ n, n ∈ (cleanupCache c expected entries).2 ↔
      n ∈ entries ∧ ¬ ∃ f ∈ expected, n ∈ legitCacheNames c f) ∧
    (cleanupCache (Cache.mk "cache" 1280 false true [] [] none)
        [File.mk "image" "img1.jpg" "img1.jpg"] ["img1.thumb.jpg", "orphan.txt"]).2 =
      ["orphan.txt"] := by
  refine ⟨rfl, fun n => ?_, by decide⟩
  have hcontains : ∀ (l : List String) (e : String), containsStr l e = true ↔ e ∈ l := by
    intro l e
    unfold containsStr
    simp [List.any_eq_true]
  unfold cleanupCache
  rw [List.mem_filter]
  refine and_congr_right fun _ => ?_
  rw [Bool.not_eq_true']
  rw [show (containsStr (expected.flatMap (legitCacheNames c)) n = false) ↔
      ¬ containsStr (expected.flatMap (legitCacheNames c)) n = true from by
    cases h : containsStr (expected.flatMap (legitCacheNames c)) n <;> simp]
  rw [hcontains]
  simp [List.mem_flatMap]

/-- C7 counterexample: the claim also demands that `cleanupCache` must
not delete album-collage artifacts.  The genuine collage artifact of
album `myalbum` with content `img1.jpg` is
`11688353880945380317.preview.jpg` (first conjunct), yet a cleanup of
that album's cache directory removes precisely this artifact, because
hash-named files never match the allow-list derived from media file
names. -/
theorem C7_counterexample :
    relativePreviewPath (relativeAlbumThumbnailPath "myalbum" ["img1.jpg"]) =
      Except.ok "myalbum/11688353880945380317.preview.jpg" ∧
    (cleanupCache (Cache.mk "cache" 1280 false true [] [] none)
        [File.mk "image" "img1.jpg" "myalbum/img1.jpg"]
        ["11688353880945380317.preview.jpg", "img1.thumb.jpg"]).2 =
      ["11688353880945380317.preview.jpg"] := by decide

/-! ## Counterexample environments -/

/-- An environment in which every filesystem-side operation succeeds
but no image file can be opened — exactly the situation of a request
for a source file that does not exist (`imaging.Open` fails with a
file-not-found error). -/
def envNoSource : GenEnv :=
  GenEnv.mk (fun p => Except.error ("open " ++ p ++ ": no such file or directory"))
    (fun p => Except.error ("open " ++ p ++ ": no such file or directory"))
    (fun _ => true) (fun _ => true) (fun _ => true) false (fun _ _ => false)
    (fun _ _ => false) true (fun _ => none) true

/-! ## Claim C2: counterexample -/

/-- C2 counterexample: for a source file that is absent (it is not on
the filesystem, first conjunct, and its media path resolves fine,
second conjunct), both `generateThumbnail` and `generatePreview` fail
and DO create an error-marker file, contradicting the claim that
absent sources are never memoized with a marker: the code cannot
distinguish a missing file from a corrupt one, since both surface as
`imaging.Open` errors. -/
theorem C2_counterexample :
    (FS.mk []).statOk "media/img.jpg" = false ∧
    getFullMediaPath (Media.mk "media" true) "img.jpg" = Except.ok "media/img.jpg" ∧
    (generateThumbnail envNoSource (Media.mk "media" true)
      (Cache.mk "cache" 1280 false false [] [] none) (FS.mk []) "img.jpg").markerWritten =
      true ∧
    (generateThumbnail envNoSource (Media.mk "media" true)
      (Cache.mk "cache" 1280 false false [] [] none) (FS.mk []) "img.jpg").result.isOk =
      false ∧
    (generatePreview envNoSource (Media.mk "media" true)
      (Cache.mk "cache" 1280 false false [] [] none) (FS.mk []) "img.jpg").markerWritten =
      true ∧
    (generatePreview envNoSource (Media.mk "media" true)
      (Cache.mk "cache" 1280 false false [] [] none) (FS.mk []) "img.jpg").result.isOk =
      false := by decide

/-! ## Claim C3: counterexample -/

/-- C3 counterexample: the claim quantifies over every key whose
error-marker file exists.  When the artifact file itself also exists
(the code checks the artifact before the marker, and a partial artifact
can outlive a failed encode), `generateThumbnail` succeeds and returns
the artifact path instead of failing with the memoized reason. -/
theorem C3_counterexample :
    (FS.mk ["cache/img.thumb.jpg", "cache/img.thumb.err.txt"]).statOk
      (errorIndicationPath "cache/img.thumb.jpg") = true ∧
    (generateThumbnail envNoSource (Media.mk "media" true)
      (Cache.mk "cache" 1280 false false [] [] none)
      (FS.mk ["cache/img.thumb.jpg", "cache/img.thumb.err.txt"]) "img.jpg").result =
      Except.ok "cache/img.thumb.jpg" ∧
    (generateThumbnail envNoSource (Media.mk "media" true)
      (Cache.mk "cache" 1280 false false [] [] none)
      (FS.mk ["cache/img.thumb.jpg", "cache/img.thumb.err.txt"]) "img.jpg").genInvoked =
      false := by decide

/-! ## Claim C5: counterexample -/

/-- C5 counterexample: the claim demands that exactly the extension be
replaced.  The naming functions use `strings.Replace` with count `-1`,
so for `img.jpg.jpg` every occurrence of `.jpg` is replaced, giving
`img.thumb.jpg.thumb.jpg` (and `img.preview.jpg.preview.jpg`) instead
of the claimed `img.jpg.thumb.jpg`. -/
theorem C5_counterexample :
    relativeThumbnailPath "img.jpg.jpg" = Except.ok "img.thumb.jpg.thumb.jpg" ∧
    relativePreviewPath "img.jpg.jpg" = Except.ok "img.preview.jpg.preview.jpg" ∧
    ("img.thumb.jpg.thumb.jpg" == "img.jpg.thumb.jpg") = false := by decide

/-! ## Claim C2: amended theorem -/

/-- C2 (amended): when the request fails because the path escapes the
media root, neither function touches the marker machinery, invokes
generation, or changes the filesystem; and a marker is attempted
exactly when the generation stage itself fails — for thumbnails the
dispatched image/video generation step, for previews additionally a
failing dimension read (which is how an absent source surfaces, since
the code cannot tell a missing file from a corrupt one). -/
theorem C2_marker_policy (env : GenEnv) (m : Media) (c : Cache) (fs : FS) (rel e : String) :
    (getFullMediaPath m rel = Except.error e →
      (generateThumbnail env m c fs rel).markerAttempted = false ∧
      (generateThumbnail env m c fs rel).markerWritten = false ∧
      (generateThumbnail env m c fs rel).genInvoked = false ∧
      (generateThumbnail env m c fs rel).fs = fs ∧
      (generatePreview env m c fs rel).markerAttempted = false ∧
      (generatePreview env m c fs rel).markerWritten = false ∧
      (generatePreview env m c fs rel).genInvoked = false ∧
      (generatePreview env m c fs rel).fs = fs) ∧
    ((generateThumbnail env m c fs rel).markerAttempted = true ↔
      (generateThumbnail env m c fs rel).genInvoked = true ∧
      (generateThumbnail env m c fs rel).result.isOk = false) ∧
    ((generatePreview env m c fs rel).markerAttempted = true ↔
      ((generatePreview env m c fs rel).dimsFailed = true ∨
        ((generatePreview env m c fs rel).genInvoked = true ∧
          (generatePreview env m c fs rel).result.isOk = false))) := by
  refine ⟨?_, ?_, ?_⟩
  · intro h
    refine ⟨?_, ?_, ?_, ?_, ?_, ?_, ?_, ?_⟩ <;>
      · simp only [generateThumbnail, generatePreview]
        repeat' split
        all_goals try dsimp only
        all_goals simp_all
  · unfold generateThumbnail
    repeat' split
    all_goals try dsimp only
    repeat' split
    all_goals simp_all [Except.isOk, Except.toBool]
  · unfold generatePreview
    repeat' split
    all_goals try dsimp only
    repeat' split
    all_goals simp_all [Except.isOk, Except.toBool]

/-- Witness for C2: a concrete escaping request (`../x.jpg`) leaves no
marker behind for either generator. -/
theorem C2_marker_policy_witness :
    (generateThumbnail envNoSource (Media.mk "media" true)
      (Cache.mk "cache" 1280 false false [] [] none) (FS.mk []) "../x.jpg").markerWritten =
      false ∧
    (generatePreview envNoSource (Media.mk "media" true)
      (Cache.mk "cache" 1280 false false [] [] none) (FS.mk []) "../x.jpg").markerWritten =
      false := by
  have h := (C2_marker_policy envNoSource (Media.mk "media" true)
    (Cache.mk "cache" 1280 false false [] [] none) (FS.mk []) "../x.jpg"
    "hacker attack, someone tries to access: x.jpg").1 (by decide)
  exact ⟨h.2.1, h.2.2.2.2.2.1⟩

/-! ## Claim C3: amended theorem -/

/-- C3 (amended): when the error marker of a key exists and the
artifact itself does not, both generators fail immediately with the
"failed before" message, invoke no generation, attempt no new marker,
and leave the filesystem and the cache record unchanged — so the same
request keeps failing identically until the marker disappears. -/
theorem C3_marker_short_circuit (env : GenEnv) (m : Media) (c : Cache) (fs : FS)
    (rel rtp tfn rpp pfn : String) :
    (relativeThumbnailPath rel = Except.ok rtp → getFullCachePath c rtp = Except.ok tfn →
      fs.statOk tfn = false → fs.statOk (errorIndicationPath tfn) = true →
      generateThumbnail env m c fs rel =
        ThumbResult.mk
          (Except.error ("skipping generate thumbnail for " ++ rel ++
            " since it has failed before,")) fs c false false false) ∧
    (relativePreviewPath rel = Except.ok rpp → getFullCachePath c rpp = Except.ok pfn →
      fs.statOk pfn = false → fs.statOk (errorIndicationPath pfn) = true →
      generatePreview env m c fs rel =
        PreviewResult.mk
          (Except.error ("Skipping generate preview for " ++ rel ++
            " since it has failed before.")) false fs c false false false false none) := by
  constructor
  · intro h1 h2 h3 h4
    unfold generateThumbnail
    repeat' split
    all_goals try dsimp only
    repeat' split
    all_goals simp_all
  · intro h1 h2 h3 h4
    unfold generatePreview
    repeat' split
    all_goals try dsimp only
    repeat' split
    all_goals simp_all

/-- Witness for C3: with only the two markers on disk, both generators
fail with the skip message, without generation and without touching the
filesystem. -/
theorem C3_marker_short_circuit_witness :
    generateThumbnail envNoSource (Media.mk "media" true)
      (Cache.mk "cache" 1280 false false [] [] none)
      (FS.mk ["cache/img.thumb.err.txt", "cache/img.preview.err.txt"]) "img.jpg" =
      ThumbResult.mk
        (Except.error "skipping generate thumbnail for img.jpg since it has failed before,")
        (FS.mk ["cache/img.thumb.err.txt", "cache/img.preview.err.txt"])
        (Cache.mk "cache" 1280 false false [] [] none) false false false ∧
    generatePreview envNoSource (Media.mk "media" true)
      (Cache.mk "cache" 1280 false false [] [] none)
      (FS.mk ["cache/img.thumb.err.txt", "cache/img.preview.err.txt"]) "img.jpg" =
      PreviewResult.mk
        (Except.error "Skipping generate preview for img.jpg since it has failed before.")
        false (FS.mk ["cache/img.thumb.err.txt", "cache/img.preview.err.txt"])
        (Cache.mk "cache" 1280 false false [] [] none) false false false false none := by
  have h := C3_marker_short_circuit envNoSource (Media.mk "media" true)
    (Cache.mk "cache" 1280 false false [] [] none)
    (FS.mk ["cache/img.thumb.err.txt", "cache/img.preview.err.txt"]) "img.jpg"
    "img.thumb.jpg" "cache/img.thumb.jpg" "img.preview.jpg" "cache/img.preview.jpg"
  exact ⟨h.1 (by decide) (by decide) (by decide) (by decide),
    h.2 (by decide) (by decide) (by decide) (by decide)⟩

/-! ## Claim C4 -/

theorem strNe_append_sh (s : String) : s ≠ s ++ ".sh.jpg" := by
  intro h
  have hd := congrArg (fun t : String => t.data.length) h
  simp only [strData_append, List.length_append] at hd
  simp at hd

/-- A generator run that succeeded leaves the thumbnail file on disk
(image variant). -/
theorem generateImageThumbnail_ok_fs (env : GenEnv) (fs : FS) (a b : String)
    (h : (generateImageThumbnail env fs a b).result = Except.ok ()) :
    (generateImageThumbnail env fs a b).fs.statOk b = true := by
  unfold generateImageThumbnail at h ⊢
  repeat' split at h
  all_goals repeat' split
  all_goals simp_all [FS.statOk, FS.create, containsStr]

/-- A generator run that succeeded leaves the thumbnail file on disk
(video variant); the removed temporary screenshot has a different
name. -/
theorem generateVideoThumbnail_ok_fs (env : GenEnv) (fs : FS) (a b : String)
    (h : (generateVideoThumbnail env fs a b).result = Except.ok ()) :
    (generateVideoThumbnail env fs a b).fs.statOk b = true := by
  have hne := strNe_append_sh b
  unfold generateVideoThumbnail at h ⊢
  dsimp only at h ⊢
  cases hex : (extractVideoScreenshot env fs a (b ++ ".sh.jpg")).result with
  | error e => rw [hex] at h; simp at h
  | ok u =>
    rw [hex] at h
    dsimp only at h ⊢
    cases hoi : env.openImage (b ++ ".sh.jpg") with
    | error e => simp [hoi] at h
    | ok d =>
      simp only [hoi] at h ⊢
      cases hvi : env.videoIconOk with
      | false => simp [hvi] at h
      | true =>
        simp only [hvi, Bool.not_true, Bool.false_eq_true, if_false] at h ⊢
        cases hcr : env.createOk b with
        | false => simp [hcr] at h
        | true =>
          simp only [hcr, Bool.not_true, Bool.false_eq_true, if_false] at h ⊢
          simp [FS.statOk, FS.create, FS.removeFile, containsStr, hne]

/-- `generateThumbnail` returns the cached artifact untouched when it
already exists. -/
theorem generateThumbnail_artifact_hit (env : GenEnv) (m : Media) (c : Cache) (fs : FS)
    (rel rtp tfn : String) (h1 : relativeThumbnailPath rel = Except.ok rtp)
    (h2 : getFullCachePath c rtp = Except.ok tfn) (h3 : fs.statOk tfn = true) :
    generateThumbnail env m c fs rel = ThumbResult.mk (Except.ok tfn) fs c false false false := by
  unfold generateThumbnail
  repeat' split
  all_goals try dsimp only
  repeat' split
  all_goals simp_all

/-- Inversion: a successful `generateThumbnail` run returns the derived
thumbnail path, which exists on the returned filesystem; the returned
cache keeps the cache root. -/
theorem generateThumbnail_ok_inv (env : GenEnv) (m : Media) (c : Cache) (fs : FS)
    (rel p : String) (hp : (generateThumbnail env m c fs rel).result = Except.ok p) :
    ∃ rtp, relativeThumbnailPath rel = Except.ok rtp ∧
      getFullCachePath c rtp = Except.ok p ∧
      (generateThumbnail env m c fs rel).fs.statOk p = true ∧
      (generateThumbnail env m c fs rel).cache.cachepath = c.cachepath := by
  unfold generateThumbnail at hp ⊢
  cases h1 : relativeThumbnailPath rel with
  | error e => rw [h1] at hp; simp at hp
  | ok rtp =>
    rw [h1] at hp
    dsimp only at hp ⊢
    cases h2 : getFullCachePath c rtp with
    | error e => rw [h2] at hp; simp at hp
    | ok tfn =>
      rw [h2] at hp
      dsimp only at hp ⊢
      cases h3 : fs.statOk tfn with
      | true =>
        rw [h3] at hp
        simp only [if_true] at hp ⊢
        simp at hp
        subst hp
        exact ⟨rtp, rfl, h2, by simp [h3], by simp⟩
      | false =>
        rw [h3] at hp
        simp only [Bool.false_eq_true, if_false] at hp ⊢
        cases h4 : fs.statOk (errorIndicationPath tfn) with
        | true => rw [h4] at hp; simp at hp
        | false =>
          rw [h4] at hp
          simp only [Bool.false_eq_true, if_false] at hp ⊢
          cases h5 : getFullMediaPath m rel with
          | error e => rw [h5] at hp; simp at hp
          | ok fmp =>
            rw [h5] at hp
            dsimp only at hp ⊢
            cases h6 : isVideo fmp with
            | true =>
              rw [h6] at hp
              simp only [if_true] at hp ⊢
              cases h7 : (generateVideoThumbnail env fs fmp tfn).result with
              | error e => rw [h7] at hp; simp at hp
              | ok u =>
                rw [h7] at hp
                dsimp only at hp ⊢
                simp at hp
                subst hp
                refine ⟨rtp, rfl, h2, ?_, by simp⟩
                simpa using generateVideoThumbnail_ok_fs env fs fmp tfn (by rw [h7])
            | false =>
              rw [h6] at hp
              simp only [Bool.false_eq_true, if_false] at hp ⊢
              cases h7 : (generateImageThumbnail env fs fmp tfn).result with
              | error e => rw [h7] at hp; simp at hp
              | ok u =>
                rw [h7] at hp
                dsimp only at hp ⊢
                simp at hp
                subst hp
                refine ⟨rtp, rfl, h2, ?_, by simp⟩
                simpa using generateImageThumbnail_ok_fs env fs fmp tfn (by rw [h7])

/-- C4: when the thumbnail artifact exists, `generateThumbnail` returns
its path with no generation work, no marker, and no state change;
consequently, after any successful call a second call returns the
identical path and performs no generation work; and a successful call
that did not find the artifact on disk is the one that performed the
generation work — so two consecutive calls generate exactly once. -/
theorem C4_thumbnail_idempotent (env : GenEnv) (m : Media) (c : Cache) (fs : FS)
    (rel rtp tfn : String) :
    (relativeThumbnailPath rel = Except.ok rtp → getFullCachePath c rtp = Except.ok tfn →
      fs.statOk tfn = true →
      generateThumbnail env m c fs rel =
        ThumbResult.mk (Except.ok tfn) fs c false false false) ∧
    (∀ p, (generateThumbnail env m c fs rel).result = Except.ok p →
      generateThumbnail env m (generateThumbnail env m c fs rel).cache
          (generateThumbnail env m c fs rel).fs rel =
        ThumbResult.mk (Except.ok p) (generateThumbnail env m c fs rel).fs
          (generateThumbnail env m c fs rel).cache false false false) ∧
    (relativeThumbnailPath rel = Except.ok rtp → getFullCachePath c rtp = Except.ok tfn →
      fs.statOk tfn = false → (generateThumbnail env m c fs rel).result.isOk = true →
      (generateThumbnail env m c fs rel).genInvoked = true) := by
  refine ⟨?_, ?_, ?_⟩
  · intro h1 h2 h3
    exact generateThumbnail_artifact_hit env m c fs rel rtp tfn h1 h2 h3
  · intro p hp
    obtain ⟨rtp2, h1, h2, hstat, hcp⟩ := generateThumbnail_ok_inv env m c fs rel p hp
    have h2b : getFullCachePath (generateThumbnail env m c fs rel).cache rtp2 =
        Except.ok p := by
      unfold getFullCachePath at h2 ⊢
      rw [hcp]
      exact h2
    exact generateThumbnail_artifact_hit env m _ _ rel rtp2 p h1 h2b hstat
  · intro h1 h2 h3 hok
    unfold generateThumbnail at hok ⊢
    rw [h1] at hok ⊢
    dsimp only at hok ⊢
    rw [h2] at hok ⊢
    dsimp only at hok ⊢
    rw [h3] at hok ⊢
    simp only [Bool.false_eq_true, if_false] at hok ⊢
    cases h4 : fs.statOk (errorIndicationPath tfn) with
    | true => rw [h4] at hok; simp [Except.isOk, Except.toBool] at hok
    | false =>
      rw [h4] at hok
      simp only [Bool.false_eq_true, if_false] at hok ⊢
      cases h5 : getFullMediaPath m rel with
      | error e => rw [h5] at hok; simp [Except.isOk, Except.toBool] at hok
      | ok fmp =>
        rw [h5] at hok
        dsimp only at hok ⊢
        cases h6 : isVideo fmp with
        | true =>
          rw [h6] at hok
          simp only [if_true] at hok ⊢
          cases h7 : (generateVideoThumbnail env fs fmp tfn).result with
          | error e => rfl
          | ok u => rfl
        | false =>
          rw [h6] at hok
          simp only [Bool.false_eq_true, if_false] at hok ⊢
          cases h7 : (generateImageThumbnail env fs fmp tfn).result with
          | error e => rfl
          | ok u => rfl

/-- An environment in which every external operation succeeds (images
decode with large dimensions, all filesystem calls succeed). -/
def envAllOk : GenEnv :=
  GenEnv.mk (fun _ => Except.ok (4128, 2322)) (fun _ => Except.ok (4128, 2322))
    (fun _ => true) (fun _ => true) (fun _ => true) true (fun _ _ => true)
    (fun _ _ => true) true (fun _ => none) true

/-- Witness for C4: starting from an empty cache directory, the first
call generates (once) and the second call returns the identical path
without any generation work or state change. -/
theorem C4_thumbnail_idempotent_witness :
    (generateThumbnail envAllOk (Media.mk "media" true)
      (Cache.mk "cache" 1280 false false [] [] none) (FS.mk []) "img.jpg").genInvoked =
      true ∧
    generateThumbnail envAllOk (Media.mk "media" true)
        (generateThumbnail envAllOk (Media.mk "media" true)
          (Cache.mk "cache" 1280 false false [] [] none) (FS.mk []) "img.jpg").cache
        (generateThumbnail envAllOk (Media.mk "media" true)
          (Cache.mk "cache" 1280 false false [] [] none) (FS.mk []) "img.jpg").fs
        "img.jpg" =
      ThumbResult.mk (Except.ok "cache/img.thumb.jpg")
        (generateThumbnail envAllOk (Media.mk "media" true)
          (Cache.mk "cache" 1280 false false [] [] none) (FS.mk []) "img.jpg").fs
        (generateThumbnail envAllOk (Media.mk "media" true)
          (Cache.mk "cache" 1280 false false [] [] none) (FS.mk []) "img.jpg").cache
        false false false := by
  have h := C4_thumbnail_idempotent envAllOk (Media.mk "media" true)
    (Cache.mk "cache" 1280 false false [] [] none) (FS.mk []) "img.jpg" "img.thumb.jpg"
    "cache/img.thumb.jpg"
  exact ⟨h.2.2 (by decide) (by decide) (by decide) (by decide),
    h.2.1 "cache/img.thumb.jpg" (by decide)⟩

/-! ## Claim C6 -/

theorem fitDims_le (srcW srcH mx : Nat) :
    (fitDims srcW srcH mx mx).1 ≤ mx ∧ (fitDims srcW srcH mx mx).2 ≤ mx := by
  unfold fitDims
  split_ifs with h1 h2 h3 h4
  · exact ⟨Nat.zero_le _, Nat.zero_le _⟩
  · exact ⟨Nat.zero_le _, Nat.zero_le _⟩
  · simp only [Bool.and_eq_true, decide_eq_true_eq] at h3
    exact ⟨h3.1, h3.2⟩
  · refine ⟨le_refl mx, ?_⟩
    have hw : 0 < srcW := by
      simp only [Bool.or_eq_true, decide_eq_true_eq, not_or] at h2
      omega
    have hmx : 0 < mx := by
      simp only [Bool.or_eq_true, decide_eq_true_eq, not_or] at h1
      omega
    simp only [decide_eq_true_eq] at h4
    have hlt : srcH < srcW := Nat.lt_of_mul_lt_mul_right h4
    have : mx * srcH < mx * srcW := (Nat.mul_lt_mul_left hmx).mpr hlt
    exact le_of_lt ((Nat.div_lt_iff_lt_mul hw).mpr this)
  · refine ⟨?_, le_refl mx⟩
    have hh : 0 < srcH := by
      simp only [Bool.or_eq_true, decide_eq_true_eq, not_or] at h2
      omega
    simp only [decide_eq_true_eq, not_lt] at h4
    have hle : mx * srcW ≤ mx * srcH := by
      calc mx * srcW = srcW * mx := Nat.mul_comm _ _
        _ ≤ srcH * mx := h4
        _ = mx * srcH := Nat.mul_comm _ _
    calc mx * srcW / srcH ≤ mx * srcH / srcH := Nat.div_le_div_right hle
      _ = mx := by rw [Nat.mul_div_cancel _ hh]

/-- The dimensions reported for a written preview are bounded by
`previewMaxSide` (they come from `imaging.Fit`). -/
theorem generateImagePreview_dims (c : Cache) (env : GenEnv) (fs : FS) (a b : String)
    (d : Nat × Nat) (h : (generateImagePreview c env fs a b).2 = some d) :
    d.1 ≤ c.previewMaxSide ∧ d.2 ≤ c.previewMaxSide := by
  unfold generateImagePreview at h
  cases hoi : env.openImage a with
  | error e => rw [hoi] at h; simp at h
  | ok wh =>
    rw [hoi] at h
    dsimp only at h
    split_ifs at h with hc1 hc2 hc3
    simp only [Option.some.injEq] at h
    exact h ▸ fitDims_le wh.1 wh.2 c.previewMaxSide

/-- C6: with "generate previews for small images" disabled, a source
whose dimensions both fit within `previewMaxSide` yields the
distinguished too-small result — an error return with `tooSmall` set,
no generation, no marker, and no state change (so the size check runs
again on every call); with the flag enabled generation proceeds; and
any artifact the generator writes has both dimensions bounded by
`previewMaxSide`. -/
theorem C6_preview_small_images (env : GenEnv) (m : Media) (c : Cache) (fs : FS)
    (rel rp pfn fmp : String) (w hgt : Nat) :
    (relativePreviewPath rel = Except.ok rp → getFullCachePath c rp = Except.ok pfn →
      fs.statOk pfn = false → fs.statOk (errorIndicationPath pfn) = false →
      getFullMediaPath m rel = Except.ok fmp →
      env.openImagePlain fmp = Except.ok (w, hgt) →
      c.genPreviewForSmallImages = false → w ≤ c.previewMaxSide → hgt ≤ c.previewMaxSide →
      generatePreview env m c fs rel =
        PreviewResult.mk (Except.error ("Image " ++ rel ++ " too small to generate preview"))
          true fs c false false false false none) ∧
    (relativePreviewPath rel = Except.ok rp → getFullCachePath c rp = Except.ok pfn →
      fs.statOk pfn = false → fs.statOk (errorIndicationPath pfn) = false →
      getFullMediaPath m rel = Except.ok fmp →
      env.openImagePlain fmp = Except.ok (w, hgt) →
      c.genPreviewForSmallImages = true →
      (generatePreview env m c fs rel).genInvoked = true) ∧
    (∀ d, (generatePreview env m c fs rel).writtenDims = some d →
      d.1 ≤ c.previewMaxSide ∧ d.2 ≤ c.previewMaxSide) := by
  refine ⟨?_, ?_, ?_⟩
  · intro h1 h2 h3 h4 h5 h6 h7 h8 h9
    unfold generatePreview
    rw [h1]
    dsimp only
    rw [h2]
    dsimp only
    rw [h3]
    simp only [Bool.false_eq_true, if_false]
    rw [h4]
    simp only [Bool.false_eq_true, if_false]
    rw [h5]
    dsimp only
    unfold getImageWidthAndHeight
    rw [h6]
    dsimp only
    rw [h7]
    simp [h8, h9]
  · intro h1 h2 h3 h4 h5 h6 h7
    unfold generatePreview
    rw [h1]
    dsimp only
    rw [h2]
    dsimp only
    rw [h3]
    simp only [Bool.false_eq_true, if_false]
    rw [h4]
    simp only [Bool.false_eq_true, if_false]
    rw [h5]
    dsimp only
    unfold getImageWidthAndHeight
    rw [h6]
    dsimp only
    rw [h7]
    simp only [Bool.not_true, Bool.false_and, Bool.false_eq_true, if_false]
    cases h8 : (generateImagePreview c env fs fmp pfn).1.result with
    | error e => rfl
    | ok u => rfl
  · intro d hd
    unfold generatePreview at hd
    cases h1 : relativePreviewPath rel with
    | error e => rw [h1] at hd; simp at hd
    | ok rp2 =>
      rw [h1] at hd
      dsimp only at hd
      cases h2 : getFullCachePath c rp2 with
      | error e => rw [h2] at hd; simp at hd
      | ok pfn2 =>
        rw [h2] at hd
        dsimp only at hd
        cases h3 : fs.statOk pfn2 with
        | true => rw [h3] at hd; simp at hd
        | false =>
          rw [h3] at hd
          simp only [Bool.false_eq_true, if_false] at hd
          cases h4 : fs.statOk (errorIndicationPath pfn2) with
          | true => rw [h4] at hd; simp at hd
          | false =>
            rw [h4] at hd
            simp only [Bool.false_eq_true, if_false] at hd
            cases h5 : getFullMediaPath m rel with
            | error e => rw [h5] at hd; simp at hd
            | ok fmp2 =>
              rw [h5] at hd
              dsimp only at hd
              cases h6 : getImageWidthAndHeight env fmp2 with
              | error e => rw [h6] at hd; simp at hd
              | ok wh =>
                rw [h6] at hd
                dsimp only at hd
                split_ifs at hd with hc
                cases h7 : (generateImagePreview c env fs fmp2 pfn2).1.result with
                | error e =>
                  rw [h7] at hd
                  dsimp only at hd
                  exact generateImagePreview_dims c env fs fmp2 pfn2 d hd
                | ok u =>
                  rw [h7] at hd
                  dsimp only at hd
                  exact generateImagePreview_dims c env fs fmp2 pfn2 d hd

/-- An environment whose images decode at 800×600 with every
filesystem-side operation succeeding. -/
def envSmallImage : GenEnv :=
  GenEnv.mk (fun _ => Except.ok (800, 600)) (fun _ => Except.ok (800, 600))
    (fun _ => true) (fun _ => true) (fun _ => true) true (fun _ _ => true)
    (fun _ _ => true) true (fun _ => none) true

/-- Witness for C6: an 800×600 source with `previewMaxSide = 1280` is
skipped as too small when the flag is off, generates when the flag is
on, and the written artifact dimensions respect the bound. -/
theorem C6_preview_small_images_witness :
    generatePreview envSmallImage (Media.mk "media" true)
        (Cache.mk "cache" 1280 false false [] [] none) (FS.mk []) "img.jpg" =
      PreviewResult.mk (Except.error "Image img.jpg too small to generate preview") true
        (FS.mk []) (Cache.mk "cache" 1280 false false [] [] none) false false false false
        none ∧
    (generatePreview envSmallImage (Media.mk "media" true)
      (Cache.mk "cache" 1280 true false [] [] none) (FS.mk []) "img.jpg").genInvoked = true ∧
    ((800 : Nat) ≤ 1280 ∧ (600 : Nat) ≤ 1280) := by
  refine ⟨?_, ?_, ?_⟩
  · exact (C6_preview_small_images envSmallImage (Media.mk "media" true)
      (Cache.mk "cache" 1280 false false [] [] none) (FS.mk []) "img.jpg" "img.preview.jpg"
      "cache/img.preview.jpg" "media/img.jpg" 800 600).1 (by decide) (by decide) (by decide)
      (by decide) (by decide) (by decide) (by decide) (by decide) (by decide)
  · exact (C6_preview_small_images envSmallImage (Media.mk "media" true)
      (Cache.mk "cache" 1280 true false [] [] none) (FS.mk []) "img.jpg" "img.preview.jpg"
      "cache/img.preview.jpg" "media/img.jpg" 800 600).2.1 (by decide) (by decide) (by decide)
      (by decide) (by decide) (by decide) (by decide)
  · exact (C6_preview_small_images envSmallImage (Media.mk "media" true)
      (Cache.mk "cache" 1280 true false [] [] none) (FS.mk []) "img.jpg" "img.preview.jpg"
      "cache/img.preview.jpg" "media/img.jpg" 800 600).2.2 (800, 600) (by decide)

/-! ## Claim C8 -/

/-- C8: a file whose resolved media path is not a JPEG never needs
rotation; absent EXIF, an absent orientation tag, or orientation code 1
never need rotation; and for codes 2 through 8 the correction applied
by `writeEXIFThumbnail` is exactly vertical flip, 180°, 180°+flip,
270°+flip, 270°, 90°+flip, 90° respectively (the table is spelled out
in the final conjunct). -/
theorem C8_orientation_mapping (env : GenEnv) (m : Media) (rel full : String) :
    (getFullMediaPath m rel = Except.ok full → isJPEG full = false →
      isRotationNeeded env m rel = false) ∧
    (extractEXIF env m rel = none → isRotationNeeded env m rel = false) ∧
    (∀ ex : ExifData, extractEXIF env m rel = some ex →
      (ex.orientation = none ∨ ex.orientation = some 1) →
      isRotationNeeded env m rel = false) ∧
    (∀ (o : Int) (t : RotTransform),
      (o, t) ∈ ([(2, RotTransform.flipV), (3, RotTransform.rotate180),
        (4, RotTransform.rotate180flipV), (5, RotTransform.rotate270flipV),
        (6, RotTransform.rotate270), (7, RotTransform.rotate90flipV),
        (8, RotTransform.rotate90)] : List (Int × RotTransform)) →
      ∀ ex : ExifData, extractEXIF env m rel = some ex → ex.orientation = some o →
        ex.hasThumb = true → env.exifThumbDecodeOk = true →
        writeEXIFThumbnail env m rel = Except.ok (ThumbWrite.rotated t)) := by
  refine ⟨?_, ?_, ?_, ?_⟩
  · intro h1 h2
    have hex : extractEXIF env m rel = none := by
      unfold extractEXIF
      rw [h1]
      dsimp only
      rw [h2]
      rfl
    unfold isRotationNeeded
    rw [hex]
    cases m.autoRotate <;> rfl
  · intro hex
    unfold isRotationNeeded
    rw [hex]
    cases m.autoRotate <;> rfl
  · intro ex hex hor
    unfold isRotationNeeded
    rw [hex]
    dsimp only
    rcases hor with h | h <;> rw [h] <;> cases m.autoRotate <;> simp
  · intro o t hmem ex hex hor hthumb hdec
    unfold writeEXIFThumbnail
    rw [hex]
    dsimp only
    rw [hthumb]
    simp only [Bool.not_true, Bool.false_eq_true, if_false]
    rw [hor]
    dsimp only
    fin_cases hmem <;> simp [orientTransform, hdec]

/-- An environment whose EXIF decoder reports orientation 6 with an
embedded thumbnail. -/
def envExifSix : GenEnv :=
  GenEnv.mk (fun _ => Except.error "e") (fun _ => Except.error "e") (fun _ => true)
    (fun _ => true) (fun _ => true) false (fun _ _ => false) (fun _ _ => false) true
    (fun _ => some (ExifData.mk (some 6) true)) true

/-- Witness for C8: orientation 6 yields a 270° rotation, and a PNG
needs no rotation. -/
theorem C8_orientation_mapping_witness :
    writeEXIFThumbnail envExifSix (Media.mk "media" true) "x.jpg" =
      Except.ok (ThumbWrite.rotated RotTransform.rotate270) ∧
    isRotationNeeded envExifSix (Media.mk "media" true) "png.png" = false := by
  constructor
  · exact (C8_orientation_mapping envExifSix (Media.mk "media" true) "x.jpg"
      "media/x.jpg").2.2.2 6 RotTransform.rotate270 (by decide)
      (ExifData.mk (some 6) true) (by decide) rfl rfl rfl
  · exact (C8_orientation_mapping envExifSix (Media.mk "media" true) "png.png"
      "media/png.png").1 (by decide) (by decide)

/-! ## Claim C10 -/

theorem loadCache_albumThumbnails :
    ∀ (c : Cache) (rel : String) (es : List FEntry),
      (loadCache c rel es).albumThumbnails = c.albumThumbnails
  | c, rel, [] => by simp [loadCache]
  | c, rel, FEntry.file name :: rest => by
    simp only [loadCache]
    rw [loadCache_albumThumbnails _ rel rest]
    split_ifs <;> rfl
  | c, rel, FEntry.dir name children :: rest => by
    simp only [loadCache]
    rw [loadCache_albumThumbnails _ rel rest]
    cases h : getFullCachePath c (toSlash (goJoin rel name)) with
    | error e => rfl
    | ok x =>
      dsimp only
      rw [loadCache_albumThumbnails c (toSlash (goJoin rel name)) children]
termination_by _ _ es => sizeOf es
decreasing_by
  all_goals simp_wf
  all_goals omega

theorem createCache_albumThumbnails (cp : String) (pm : Nat) (g1 g2 : Bool)
    (tree : List FEntry) : (createCache cp pm g1 g2 tree).albumThumbnails = none := by
  unfold createCache
  dsimp only
  cases h : getFullCachePath (Cache.mk cp pm g1 g2 [] [] none) "" with
  | error e => rfl
  | ok x =>
    dsimp only
    rw [loadCache_albumThumbnails]

theorem generateThumbnail_albumThumbnails (env : GenEnv) (m : Media) (c : Cache) (fs : FS)
    (rel : String) :
    (generateThumbnail env m c fs rel).cache.albumThumbnails = c.albumThumbnails := by
  unfold generateThumbnail
  repeat' split
  all_goals try dsimp only
  repeat' split
  all_goals rfl

theorem generatePreview_albumThumbnails (env : GenEnv) (m : Media) (c : Cache) (fs : FS)
    (rel : String) :
    (generatePreview env m c fs rel).cache.albumThumbnails = c.albumThumbnails := by
  unfold generatePreview
  repeat' split
  all_goals try dsimp only
  repeat' split
  all_goals rfl

theorem generateAlbumThumbnail_cache (env : GenEnv) (c : Cache) (fs : FS) (rel : String) :
    (generateAlbumThumbnail env c fs rel).cache = c := by
  unfold generateAlbumThumbnail
  repeat' split
  all_goals try dsimp only

/-- The cache states reachable through the operations of cache.go:
construction (`createCache`, which runs the startup scan), re-scans
(`loadCache`), and the three generators.  `cleanupCache` does not touch
the record. -/
inductive ReachableCache : Cache → Prop where
  | init (cachepath : String) (previewMaxSide : Nat) (genSmall genAlbum : Bool)
      (cacheTree : List FEntry) :
      ReachableCache (createCache cachepath previewMaxSide genSmall genAlbum cacheTree)
  | load (c : Cache) (rel : String) (entries : List FEntry) (h : ReachableCache c) :
      ReachableCache (loadCache c rel entries)
  | genThumb (env : GenEnv) (m : Media) (c : Cache) (fs : FS) (rel : String)
      (h : ReachableCache c) : ReachableCache (generateThumbnail env m c fs rel).cache
  | genPreview (env : GenEnv) (m : Media) (c : Cache) (fs : FS) (rel : String)
      (h : ReachableCache c) : ReachableCache (generatePreview env m c fs rel).cache
  | genAlbum (env : GenEnv) (c : Cache) (fs : FS) (rel : String)
      (h : ReachableCache c) : ReachableCache (generateAlbumThumbnail env c fs rel).cache

theorem reachable_albumThumbnails_none (c : Cache) (h : ReachableCache c) :
    c.albumThumbnails = none := by
  induction h with
  | init cp pm g1 g2 tree => exact createCache_albumThumbnails cp pm g1 g2 tree
  | load c rel es h ih => rw [loadCache_albumThumbnails]; exact ih
  | genThumb env m c fs rel h ih => rw [generateThumbnail_albumThumbnails]; exact ih
  | genPreview env m c fs rel h ih => rw [generatePreview_albumThumbnails]; exact ih
  | genAlbum env c fs rel h ih => rw [generateAlbumThumbnail_cache]; exact ih

/-- C10: the album-thumbnail map is never populated — `createCache`
leaves it as a nil map and no reachable operation (startup scan,
thumbnail/preview generation, album-collage generation) ever inserts
into it — so `hasAlbumThumbnail` answers `false` for every key in every
reachable cache state. -/
theorem C10_hasAlbumThumbnail_false (c : Cache) (h : ReachableCache c) (p : String) :
    hasAlbumThumbnail c p = false := by
  unfold hasAlbumThumbnail
  rw [reachable_albumThumbnails_none c h]

/-- Witness for C10: a freshly constructed cache that has even scanned
a thumbnail file still answers `false`. -/
theorem C10_hasAlbumThumbnail_false_witness :
    hasAlbumThumbnail (createCache "cache" 1280 false true [FEntry.file "a.thumb.jpg"])
      "a.thumb.jpg" = false :=
  C10_hasAlbumThumbnail_false _
    (ReachableCache.init "cache" 1280 false true [FEntry.file "a.thumb.jpg"]) "a.thumb.jpg"

/-! ## Claim C5: string infrastructure for the amended naming theorem -/

theorem chPref_iff (p s : List Char) : chPref p s = true ↔ ∃ t, s = p ++ t := by
  induction p generalizing s with
  | nil => simp [chPref]
  | cons a as ih =>
    cases s with
    | nil => simp [chPref]
    | cons b bs =>
      simp only [chPref, Bool.and_eq_true, decide_eq_true_eq]
      constructor
      · rintro ⟨rfl, h⟩
        obtain ⟨t, rfl⟩ := (ih bs).mp h
        exact ⟨t, rfl⟩
      · rintro ⟨t, ht⟩
        rw [List.cons_append] at ht
        cases ht
        exact ⟨rfl, (ih _).mpr ⟨t, rfl⟩⟩

theorem chSuffix_iff (p s : List Char) : chSuffix p s = true ↔ ∃ t, s = t ++ p := by
  unfold chSuffix
  rw [chPref_iff]
  constructor
  · rintro ⟨t, ht⟩
    refine ⟨t.reverse, ?_⟩
    have := congrArg List.reverse ht
    simpa using this
  · rintro ⟨t, rfl⟩
    exact ⟨t.reverse, by simp⟩

theorem splitCh_ne_nil (sep : Char) (s : List Char) : splitCh sep s ≠ [] := by
  cases s with
  | nil => simp [splitCh]
  | cons c rest =>
    unfold splitCh
    dsimp only
    split_ifs
    · simp
    · cases h : splitCh sep rest with
      | nil => simp
      | cons g gs => simp

theorem splitCh_cons_ne (sep c : Char) (rest : List Char) (hc : ¬ c = sep) :
    splitCh sep (c :: rest) =
      match splitCh sep rest with
      | [] => [[c]]
      | g :: gs => (c :: g) :: gs := by
  rw [splitCh]
  rw [if_neg hc]

theorem splitCh_cons_self (sep : Char) (rest : List Char) :
    splitCh sep (sep :: rest) = [] :: splitCh sep rest := by
  rw [splitCh]
  rw [if_pos rfl]

theorem splitCh_append (sep : Char) (a b : List Char) :
    splitCh sep (a ++ sep :: b) = splitCh sep a ++ splitCh sep b := by
  induction a with
  | nil => simp [splitCh_cons_self, splitCh]
  | cons c a2 ih =>
    by_cases hc : c = sep
    · rw [List.cons_append, hc, splitCh_cons_self, splitCh_cons_self, ih]
      rfl
    · rw [List.cons_append, splitCh_cons_ne sep c _ hc, splitCh_cons_ne sep c a2 hc, ih]
      cases h2 : splitCh sep a2 with
      | nil => exact absurd h2 (splitCh_ne_nil sep a2)
      | cons g gs => simp

theorem splitCh_no_sep (sep : Char) (s : List Char) (h : sep ∉ s) :
    splitCh sep s = [s] := by
  induction s with
  | nil => rfl
  | cons c rest ih =>
    unfold splitCh
    dsimp only
    have hc : ¬ c = sep := fun hh => h (hh ▸ List.mem_cons_self c rest)
    rw [if_neg hc]
    rw [ih (fun hm => h (List.mem_cons_of_mem c hm))]

theorem joinSlash_append_single (l : List String) (y : String) :
    joinSlash (l ++ [y]) = if l.isEmpty then y else joinSlash l ++ "/" ++ y := by
  induction l with
  | nil => simp [joinSlash]
  | cons x xs ih =>
    cases xs with
    | nil => simp [joinSlash]
    | cons x2 xs2 =>
      rw [show joinSlash ((x :: x2 :: xs2) ++ [y]) = x ++ "/" ++ joinSlash ((x2 :: xs2) ++ [y])
        from rfl]
      rw [ih]
      simp only [List.isEmpty_cons, Bool.false_eq_true, if_false]
      rw [show joinSlash (x :: x2 :: xs2) = x ++ "/" ++ joinSlash (x2 :: xs2) from rfl]
      simp [String.ext_iff, strData_append, List.append_assoc]

theorem cleanDots_append_single (rooted : Bool) (xs : List String) (y : String)
    (hy : y ≠ "..") : ∀ acc, cleanDots rooted (xs ++ [y]) acc = cleanDots rooted xs acc ++ [y] := by
  induction xs with
  | nil =>
    intro acc
    simp only [List.nil_append]
    unfold cleanDots
    rw [if_neg hy]
    simp [cleanDots]
  | cons e rest ih =>
    intro acc
    simp only [List.cons_append]
    unfold cleanDots
    split_ifs with he hr
    · cases acc with
      | nil =>
        dsimp only
        exact ih _
      | cons a as =>
        dsimp only
        split_ifs with ha
        · exact ih _
        · exact ih _
    · cases acc with
      | nil =>
        dsimp only
        exact ih _
      | cons a as =>
        dsimp only
        split_ifs with ha2
        · exact ih _
        · exact ih _
    · exact ih _

theorem chPref_single_false (c : Char) (l : List Char) (h : c ∉ l) : chPref [c] l = false := by
  cases l with
  | nil => rfl
  | cons a as =>
    simp only [chPref, Bool.and_eq_true, decide_eq_true_eq]
    simp only [Bool.and_eq_false_iff, decide_eq_false_iff_not]
    left
    intro hc
    exact h (by rw [hc]; exact List.mem_cons_self a as)

theorem replAux_nil (p0 : Char) (ps repl : List Char) (fuel : Nat) :
    replAux p0 ps repl fuel [] = [] := by
  cases fuel with
  | zero => rfl
  | succ f => rfl

theorem chPref_ext_le (t pre : List Char) (hdot : '.' ∉ t) (hpre : pre ≠ [])
    (h : chPref ('.' :: t) (pre ++ '.' :: t) = true) : t.length + 1 ≤ pre.length := by
  by_contra hlt
  obtain ⟨r, hr⟩ := (chPref_iff _ _).mp h
  obtain ⟨c, pre2, rfl⟩ := List.exists_cons_of_ne_nil hpre
  have hk : pre2.length + 1 ≤ t.length := by
    simp only [List.length_cons, not_le] at hlt
    omega
  have hL : ((c :: pre2) ++ '.' :: t).drop (pre2.length + 1) = '.' :: t :=
    List.drop_left' (by simp)
  have h1 := congrArg (List.drop (pre2.length + 1)) hr
  rw [hL] at h1
  rw [List.drop_append_eq_append_drop, List.drop_succ_cons] at h1
  have hz : pre2.length + 1 - ('.' :: t : List Char).length = 0 := by
    simp only [List.length_cons]
    omega
  rw [hz, List.drop_zero] at h1
  have hne2 : t.drop pre2.length ≠ [] := by
    intro hnil
    have h3 := congrArg List.length hnil
    rw [List.length_drop] at h3
    simp at h3
    omega
  obtain ⟨u, us, hu⟩ := List.exists_cons_of_ne_nil hne2
  rw [hu, List.cons_append] at h1
  injection h1 with h4 h5
  have hmem : u ∈ t := by
    have h6 : u ∈ t.drop pre2.length := by rw [hu]; exact List.mem_cons_self u us
    exact List.mem_of_mem_drop h6
  exact hdot (h4 ▸ hmem)

theorem replAux_exact (e0 : Char) (es repl : List Char) :
    ∀ (stem : List Char) (fuel : Nat), stem.length + 1 ≤ fuel →
    (∀ i, i < stem.length → chPref (e0 :: es) ((stem ++ e0 :: es).drop i) = false) →
    replAux e0 es repl fuel (stem ++ e0 :: es) = stem ++ repl := by
  intro stem
  induction stem with
  | nil =>
    intro fuel hf _
    obtain ⟨f, rfl⟩ : ∃ f, fuel = f + 1 := ⟨fuel - 1, by omega⟩
    simp only [List.nil_append]
    rw [replAux]
    have hp : chPref (e0 :: es) (e0 :: es) = true := by
      have h2 := chPref_append_self (e0 :: es) []
      rwa [List.append_nil] at h2
    rw [if_pos hp, List.drop_length, replAux_nil, List.append_nil]
  | cons c st ih =>
    intro fuel hf hocc
    obtain ⟨f, rfl⟩ : ∃ f, fuel = f + 1 := ⟨fuel - 1, by omega⟩
    rw [List.cons_append, replAux]
    have h0 := hocc 0 (by simp)
    simp only [List.drop_zero, List.cons_append] at h0
    rw [if_neg (by simp [h0])]
    rw [ih f (by simp only [List.length_cons] at hf; omega) (by
      intro i hi
      have h7 := hocc (i + 1) (by simp only [List.length_cons]; omega)
      simp only [List.cons_append, List.drop_succ_cons] at h7
      exact h7)]
    rfl

theorem replAux_ends (t repl : List Char) (hdot : '.' ∉ t) :
    ∀ (fuel : Nat) (pre : List Char), pre.length + t.length + 1 ≤ fuel →
    ∃ out, replAux '.' t repl fuel (pre ++ '.' :: t) = out ++ repl := by
  intro fuel
  induction fuel with
  | zero => intro pre h; exact absurd h (by omega)
  | succ f ih =>
    intro pre h
    cases pre with
    | nil =>
      simp only [List.nil_append]
      rw [replAux]
      have hp : chPref ('.' :: t) ('.' :: t) = true := by
        have h2 := chPref_append_self ('.' :: t) []
        rwa [List.append_nil] at h2
      rw [if_pos hp]
      exact ⟨[], by simp [replAux_nil, List.drop_length]⟩
    | cons c pre2 =>
      rw [List.cons_append, replAux]
      by_cases hm : chPref ('.' :: t) (c :: (pre2 ++ '.' :: t)) = true
      · rw [if_pos hm]
        have hm2 : chPref ('.' :: t) ((c :: pre2) ++ '.' :: t) = true := by
          rwa [List.cons_append]
        have hle := chPref_ext_le t (c :: pre2) hdot (by simp) hm2
        have hlen2 : t.length ≤ pre2.length := by
          simp only [List.length_cons] at hle
          omega
        have hdrop : (pre2 ++ '.' :: t).drop t.length =
            pre2.drop t.length ++ '.' :: t := by
          rw [List.drop_append_eq_append_drop, Nat.sub_eq_zero_of_le hlen2, List.drop_zero]
        rw [hdrop]
        obtain ⟨out, hout⟩ := ih (pre2.drop t.length) (by
          rw [List.length_drop]
          simp only [List.length_cons] at h
          omega)
        rw [hout]
        exact ⟨repl ++ out, by rw [List.append_assoc]⟩
      · rw [if_neg hm]
        obtain ⟨out, hout⟩ := ih pre2 (by simp only [List.length_cons] at h; omega)
        rw [hout]
        exact ⟨c :: out, rfl⟩

theorem replAux_chars (p0 : Char) (ps repl : List Char) :
    ∀ (fuel : Nat) (s : List Char) (x : Char),
    x ∈ replAux p0 ps repl fuel s → x ∈ s ∨ x ∈ repl := by
  intro fuel
  induction fuel with
  | zero => intro s x hx; exact Or.inl hx
  | succ f ih =>
    intro s x hx
    cases s with
    | nil =>
      rw [replAux_nil] at hx
      exact absurd hx (List.not_mem_nil x)
    | cons c rest =>
      rw [replAux] at hx
      split_ifs at hx with hp
      · rcases List.mem_append.mp hx with hh | hh
        · exact Or.inr hh
        · rcases ih _ x hh with h2 | h2
          · exact Or.inl (List.mem_cons_of_mem c (List.mem_of_mem_drop h2))
          · exact Or.inr h2
      · rcases List.mem_cons.mp hx with hh | hh
        · exact Or.inl (by rw [hh]; exact List.mem_cons_self c rest)
        · rcases ih _ x hh with h2 | h2
          · exact Or.inl (List.mem_cons_of_mem c h2)
          · exact Or.inr h2

theorem replaceAll_exact (s ext repl : String) (stem t : List Char)
    (hext : ext.data = '.' :: t)
    (hs : s.data = stem ++ '.' :: t)
    (hocc : ∀ i, i < stem.length → chPref ('.' :: t) ((stem ++ '.' :: t).drop i) = false) :
    replaceAll s ext repl = String.mk (stem ++ repl.data) := by
  unfold replaceAll
  rw [hext]
  dsimp only
  rw [hs]
  rw [replAux_exact '.' t repl.data stem ((stem ++ '.' :: t).length)
    (by simp only [List.length_append, List.length_cons]; omega) hocc]

theorem replaceAll_ends (s ext repl : String) (t : List Char)
    (hext : ext.data = '.' :: t) (hdot : '.' ∉ t)
    (pre : List Char) (hs : s.data = pre ++ '.' :: t) :
    ∃ out, (replaceAll s ext repl).data = out ++ repl.data := by
  unfold replaceAll
  rw [hext]
  dsimp only
  rw [hs]
  obtain ⟨out, hout⟩ := replAux_ends t repl.data hdot ((pre ++ '.' :: t).length) pre
    (by simp only [List.length_append, List.length_cons]; omega)
  exact ⟨out, hout⟩

theorem replaceAll_chars (s ext repl : String) (x : Char)
    (hx : x ∈ (replaceAll s ext repl).data) : x ∈ s.data ∨ x ∈ repl.data := by
  unfold replaceAll at hx
  cases hed : ext.data with
  | nil =>
    rw [hed] at hx
    dsimp only at hx
    exact Or.inl hx
  | cons p0 ps =>
    rw [hed] at hx
    dsimp only at hx
    exact replAux_chars p0 ps repl.data _ _ x hx

theorem string_ne_short (s : String) (out tail : List Char) (h : s.data = out ++ tail)
    (hlen : 3 ≤ tail.length) : ¬ s = "" ∧ ¬ s = "." ∧ ¬ s = ".." := by
  refine ⟨?_, ?_, ?_⟩ <;> intro heq <;> rw [heq] at h
  · have h1 : ("".data).length = out.length + tail.length := by rw [h, List.length_append]
    have h2 : ("".data).length = 0 := by decide
    omega
  · have h1 : (".".data).length = out.length + tail.length := by rw [h, List.length_append]
    have h2 : (".".data).length = 1 := by decide
    omega
  · have h1 : ("..".data).length = out.length + tail.length := by rw [h, List.length_append]
    have h2 : ("..".data).length = 2 := by decide
    omega

theorem goExtAux_some (l : List Char) : ∀ (acc : List Char) (e : String),
    goExtAux l acc = some e →
    ∃ seg rest2, l = seg ++ '.' :: rest2 ∧ '.' ∉ seg ∧ '/' ∉ seg ∧
      e = String.mk ('.' :: (seg.reverse ++ acc)) := by
  induction l with
  | nil =>
    intro acc e h
    exact absurd h (by simp [goExtAux])
  | cons c rest ih =>
    intro acc e h
    rw [goExtAux] at h
    split_ifs at h with h1 h2
    · simp only [Option.some.injEq] at h
      refine ⟨[], rest, ?_, by simp, by simp, ?_⟩
      · simp [h2]
      · rw [← h]
        rfl
    · obtain ⟨seg, rest2, hl, hdot, hslash, he⟩ := ih (c :: acc) e h
      refine ⟨c :: seg, rest2, by simp [hl], ?_, ?_, ?_⟩
      · intro hmm
        rcases List.mem_cons.mp hmm with hh | hh
        · exact h2 hh.symm
        · exact hdot hh
      · intro hmm
        rcases List.mem_cons.mp hmm with hh | hh
        · exact h1 hh.symm
        · exact hslash hh
      · rw [he]
        exact congrArg String.mk (by simp [List.reverse_cons, List.append_assoc])

theorem goExt_shape (p : String) (h : goExt p ≠ "") :
    ∃ stem t, p.data = stem ++ '.' :: t ∧ (goExt p).data = '.' :: t ∧ '.' ∉ t ∧ '/' ∉ t := by
  cases hx : goExtAux p.data.reverse [] with
  | none =>
    exact absurd (by unfold goExt; rw [hx]; rfl) h
  | some e =>
    obtain ⟨seg, rest2, hl, hdot, hslash, he⟩ := goExtAux_some _ _ _ hx
    have hgoext : goExt p = e := by unfold goExt; rw [hx]; rfl
    refine ⟨rest2.reverse, seg.reverse, ?_, ?_, ?_, ?_⟩
    · have h2 := congrArg List.reverse hl
      simpa using h2
    · rw [hgoext, he]
      simp
    · simpa using hdot
    · simpa using hslash

theorem goSplitAux_no_slash : ∀ (l acc : List Char), '/' ∉ acc → '/' ∉ (goSplitAux l acc).2 := by
  intro l
  induction l with
  | nil => intro acc h; exact h
  | cons c rest ih =>
    intro acc h
    rw [goSplitAux]
    split_ifs with hc
    · exact h
    · exact ih (c :: acc) (by
        intro hmm
        rcases List.mem_cons.mp hmm with hh | hh
        · exact hc hh.symm
        · exact h hh)

theorem goSplit_no_slash (p : String) : '/' ∉ (goSplit p).2.data := by
  unfold goSplit
  cases hx : goSplitAux p.data.reverse [] with
  | mk d f =>
    dsimp only
    have h2 := goSplitAux_no_slash p.data.reverse [] (List.not_mem_nil '/')
    rw [hx] at h2
    exact h2

theorem goClean_single (file : String) (hslash : '/' ∉ file.data) (hne : ¬ file = "")
    (hd1 : ¬ file = ".") (hd2 : ¬ file = "..") : goClean file = file := by
  have hroot : chPref ['/'] file.data = false := chPref_single_false '/' file.data hslash
  have hsplit : splitSlash file = [file] := by
    unfold splitSlash
    rw [splitCh_no_sep '/' file.data hslash]
    rfl
  have hfilter : ([file].filter (fun c => c != "" && c != ".")) = [file] := by
    simp [hne, hd1]
  have hclean : cleanDots false [file] [] = [file] := by
    simp [cleanDots, hd2]
  unfold goClean cleanParts
  rw [if_neg hne]
  dsimp only
  rw [hroot, hsplit, hfilter, hclean]
  simp [joinSlash]

theorem joinSlash_data_suffix (L : List String) (file : String) :
    ∃ d : List Char, (joinSlash (L ++ [file])).data = d ++ file.data := by
  rw [joinSlash_append_single]
  by_cases hL : L.isEmpty
  · rw [if_pos hL]
    exact ⟨[], rfl⟩
  · rw [if_neg hL]
    exact ⟨(joinSlash L ++ "/").data, by rw [strData_append]⟩

theorem goClean_dir_file (dir file : String) (hslash : '/' ∉ file.data) (hne : ¬ file = "")
    (hd1 : ¬ file = ".") (hd2 : ¬ file = "..") :
    ∃ d : List Char, (goClean (dir ++ "/" ++ file)).data = d ++ file.data := by
  have hdata : (dir ++ "/" ++ file).data = dir.data ++ '/' :: file.data := by
    rw [strData_append, strData_append]
    simp
  have hpne : ¬ (dir ++ "/" ++ file) = "" := by
    intro h
    have h2 : (dir ++ "/" ++ file).data = ([] : List Char) := by rw [h]
    rw [hdata] at h2
    simp at h2
  have hsplit2 : splitSlash (dir ++ "/" ++ file) =
      (splitCh '/' dir.data).map String.mk ++ [file] := by
    unfold splitSlash
    rw [hdata, splitCh_append, splitCh_no_sep '/' file.data hslash, List.map_append]
    rfl
  have hfilter : ∀ (A : List String), (A ++ [file]).filter (fun c => c != "" && c != ".") =
      A.filter (fun c => c != "" && c != ".") ++ [file] := by
    intro A
    rw [List.filter_append]
    congr 1
    simp [hne, hd1]
  unfold goClean cleanParts
  rw [if_neg hpne]
  dsimp only
  rw [hsplit2, hfilter, cleanDots_append_single _ _ _ hd2]
  split_ifs with h1 h2 h3
  · simp at h2
  · obtain ⟨d, hd⟩ := joinSlash_data_suffix _ file
    exact ⟨'/' :: d, by rw [strData_append, hd]; rfl⟩
  · simp at h3
  · exact joinSlash_data_suffix _ file

theorem goJoin_file_suffix (dir file : String) (hslash : '/' ∉ file.data) (hne : ¬ file = "")
    (hd1 : ¬ file = ".") (hd2 : ¬ file = "..") :
    ∃ d : List Char, (goJoin dir file).data = d ++ file.data := by
  unfold goJoin
  rw [if_neg (by simp [hne])]
  by_cases hdir : dir = ""
  · rw [if_pos hdir]
    rw [goClean_single file hslash hne hd1 hd2]
    exact ⟨[], rfl⟩
  · rw [if_neg hdir, if_neg hne]
    exact goClean_dir_file dir file hslash hne hd1 hd2

theorem strHasSuffix_of_data (s p : String) (d : List Char) (h : s.data = d ++ p.data) :
    strHasSuffix s p = true := by
  unfold strHasSuffix chSuffix
  rw [h, List.reverse_append]
  exact chPref_append_self _ _

theorem replaced_join_suffix (dir file0 ext repl : String) (t : List Char)
    (hextd : ext.data = '.' :: t) (hdot : '.' ∉ t)
    (hslash0 : '/' ∉ file0.data)
    (stem : List Char) (hs : file0.data = stem ++ '.' :: t)
    (hlen : 3 ≤ repl.data.length) (hrs : '/' ∉ repl.data) :
    ∃ d : List Char, (goJoin dir (replaceAll file0 ext repl)).data = d ++ repl.data := by
  obtain ⟨out, hout⟩ := replaceAll_ends file0 ext repl t hextd hdot stem hs
  have hslash2 : '/' ∉ (replaceAll file0 ext repl).data := by
    intro hm
    rcases replaceAll_chars file0 ext repl '/' hm with h | h
    · exact hslash0 h
    · exact hrs h
  obtain ⟨hne, hd1, hd2⟩ := string_ne_short (replaceAll file0 ext repl) out repl.data hout hlen
  obtain ⟨d, hd⟩ := goJoin_file_suffix dir (replaceAll file0 ext repl) hslash2 hne hd1 hd2
  exact ⟨d ++ out, by rw [hd, hout, List.append_assoc]⟩

/-- C5: amended naming rule for `relativeThumbnailPath` and
`relativePreviewPath` (the functions behind `thumbnailPath` and
`previewPath`).  A file name with no extension makes both fail with an
error.  A file name with an extension makes both succeed, and because
`strings.Replace` is called with count `-1`, every occurrence of the
extension in the file name is replaced, so the results always end in
`.thumb.jpg` / `.preview.jpg` (hence in `.jpg`); only when the extension
occurs in the file name solely as its final suffix is the result exactly
the directory joined with the stem plus `.thumb.jpg` / `.preview.jpg`,
as the original claim demands for every input. -/
theorem C5_naming (rel dir file0 : String) (hsplit : goSplit rel = (dir, file0)) :
    (goExt file0 = "" →
      relativeThumbnailPath rel = Except.error ("File has no extension: " ++ file0) ∧
      relativePreviewPath rel = Except.error ("file has no extension: " ++ file0)) ∧
    (goExt file0 ≠ "" →
      ∃ tn pn : String,
        relativeThumbnailPath rel = Except.ok tn ∧
        relativePreviewPath rel = Except.ok pn ∧
        strHasSuffix tn ".thumb.jpg" = true ∧
        strHasSuffix pn ".preview.jpg" = true ∧
        strHasSuffix tn ".jpg" = true ∧
        strHasSuffix pn ".jpg" = true) ∧
    (∀ stem : List Char,
      goExt file0 ≠ "" →
      file0.data = stem ++ (goExt file0).data →
      (∀ i, i < stem.length → chPref (goExt file0).data (file0.data.drop i) = false) →
      relativeThumbnailPath rel =
        Except.ok (toSlash (goJoin dir (String.mk (stem ++ (".thumb.jpg").data)))) ∧
      relativePreviewPath rel =
        Except.ok (toSlash (goJoin dir (String.mk (stem ++ (".preview.jpg").data))))) := by
  have hrt : relativeThumbnailPath rel =
      (if goExt file0 = "" then Except.error ("File has no extension: " ++ file0)
       else Except.ok (toSlash (goJoin dir (replaceAll file0 (goExt file0) ".thumb.jpg")))) := by
    unfold relativeThumbnailPath
    rw [hsplit]
  have hrp : relativePreviewPath rel =
      (if goExt file0 = "" then Except.error ("file has no extension: " ++ file0)
       else Except.ok (toSlash (goJoin dir (replaceAll file0 (goExt file0) ".preview.jpg")))) := by
    unfold relativePreviewPath
    rw [hsplit]
  refine ⟨?_, ?_, ?_⟩
  · intro hext
    rw [hrt, hrp, if_pos hext, if_pos hext]
    exact ⟨rfl, rfl⟩
  · intro hext
    obtain ⟨stem0, t0, hdata0, hextd0, hdot0, hslashT0⟩ := goExt_shape file0 hext
    have h0slash : '/' ∉ file0.data := by
      have h5 := goSplit_no_slash rel
      rw [hsplit] at h5
      exact h5
    have hs0 : file0.data = stem0 ++ '.' :: t0 := hdata0
    obtain ⟨dT, hdT⟩ := replaced_join_suffix dir file0 (goExt file0) ".thumb.jpg" t0
      hextd0 hdot0 h0slash stem0 hs0 (by decide) (by decide)
    obtain ⟨dP, hdP⟩ := replaced_join_suffix dir file0 (goExt file0) ".preview.jpg" t0
      hextd0 hdot0 h0slash stem0 hs0 (by decide) (by decide)
    refine ⟨toSlash (goJoin dir (replaceAll file0 (goExt file0) ".thumb.jpg")),
            toSlash (goJoin dir (replaceAll file0 (goExt file0) ".preview.jpg")),
            ?_, ?_, ?_, ?_, ?_, ?_⟩
    · rw [hrt, if_neg hext]
    · rw [hrp, if_neg hext]
    · exact strHasSuffix_of_data _ _ dT hdT
    · exact strHasSuffix_of_data _ _ dP hdP
    · have h8 : (goJoin dir (replaceAll file0 (goExt file0) ".thumb.jpg")).data =
          (dT ++ (".thumb").data) ++ (".jpg").data := by
        rw [hdT, show (".thumb.jpg").data = (".thumb").data ++ (".jpg").data from by decide,
          ← List.append_assoc]
      exact strHasSuffix_of_data _ _ _ h8
    · have h8 : (goJoin dir (replaceAll file0 (goExt file0) ".preview.jpg")).data =
          (dP ++ (".preview").data) ++ (".jpg").data := by
        rw [hdP, show (".preview.jpg").data = (".preview").data ++ (".jpg").data from by decide,
          ← List.append_assoc]
      exact strHasSuffix_of_data _ _ _ h8
  · intro stem hext hdata hocc
    obtain ⟨stem0, t0, hdata0, hextd0, hdot0, hslashT0⟩ := goExt_shape file0 hext
    have hs : file0.data = stem ++ '.' :: t0 := by rw [hdata, hextd0]
    have hocc2 : ∀ i, i < stem.length →
        chPref ('.' :: t0) ((stem ++ '.' :: t0).drop i) = false := by
      intro i hi
      have h6 := hocc i hi
      rw [hextd0, hs] at h6
      exact h6
    constructor
    · rw [hrt, if_neg hext,
        replaceAll_exact file0 (goExt file0) ".thumb.jpg" stem t0 hextd0 hs hocc2]
    · rw [hrp, if_neg hext,
        replaceAll_exact file0 (goExt file0) ".preview.jpg" stem t0 hextd0 hs hocc2]

/-- Witness for `C5_naming` at the concrete media path `d/img.jpg`:
both cache names are obtained by exact extension replacement. -/
theorem C5_naming_witness :
    relativeThumbnailPath "d/img.jpg" = Except.ok "d/img.thumb.jpg" ∧
    relativePreviewPath "d/img.jpg" = Except.ok "d/img.preview.jpg" := by
  have h := (C5_naming "d/img.jpg" "d/" "img.jpg" (by decide)).2.2 (("img").data)
    (by decide) (by decide) (by decide)
  refine ⟨?_, ?_⟩
  · rw [h.1]
    decide
  · rw [h.2]
    decide
